import Mathlib

/-!
Verification of the openclaw plugin-graph storage and retrieval engine.

The development shallowly embeds the JavaScript sources (`src/lib/graph-store.js`,
`src/lib/pattern-discovery.js`) into Lean: the SQLite tables become lists of
records, `datetime('now')` / `julianday('now')` become an explicit model clock
carried in the state, REAL columns become exact rationals, and every operation
is a pure state-passing function.  Unless a comment says otherwise, each
definition is a direct transcription of the JS function of the same name.
-/

/-- Characters treated as whitespace by the JS `trim` / `\s` model
(ASCII space, tab, newline, carriage return). -/
def isWsChar (c : Char) : Bool :=
  c = ' ' || c = '\t' || c = '\n' || c = '\r'

/-- `GraphStore.normalizeEntityId`: `name.toLowerCase().trim().replace(/\s+/g, '_')`.
Lowercasing is modelled on ASCII letters (`Char.toLower`); trimming plus the
collapse of whitespace runs to a single `_` is realised by splitting on
whitespace, dropping empty fragments and rejoining with `_`. -/
def normalizeEntityId (name : String) : String :=
  let lowered := String.mk (name.toList.map Char.toLower)
  String.intercalate "_" ((lowered.split (fun c => isWsChar c)).filter (fun s => s ≠ ""))

/-- A row of the `triples` table.  `confidence` (REAL) is an exact rational;
`updatedAt` / `createdAt` store the model clock (in days, as `julianday` does). -/
structure Triple where
  id : Nat
  subject : String
  predicate : String
  object : String
  confidence : Rat
  sourceExchangeId : Option String
  sourceDate : String
  createdAt : Rat
  updatedAt : Rat
  agentId : String
  pendingResolution : Bool
deriving DecidableEq

/-- A row of the `entities` table. -/
structure Entity where
  id : String
  canonicalName : String
  entityType : String
  firstSeen : Rat
  lastSeen : Rat
  mentionCount : Nat
  aliases : List String
  agentId : String
deriving DecidableEq

/-- A row of the `cooccurrences` table (no `agent_id` column, as in the schema). -/
structure Cooc where
  entityA : String
  entityB : String
  count : Nat
  lastSeen : Rat
deriving DecidableEq

/-- A row of the `meta_patterns` table.  The JSON-encoded `predicates` column is
modelled as the decoded list; `overlap` models the `overlap_ratio` column. -/
structure MetaPattern where
  id : Nat
  predicates : List String
  patternType : String
  weight : Rat
  yieldScore : Rat
  overlap : Rat
  active : Bool
  agentId : String
deriving DecidableEq

/-- The whole store: the four tables, the AUTOINCREMENT counters, the model
clock `now` (a julian day number) and `today` (the date string
`new Date().toISOString().split('T')[0]` would produce). -/
structure GraphState where
  triples : List Triple
  entities : List Entity
  coocs : List Cooc
  patterns : List MetaPattern
  nextTripleId : Nat
  nextPatternId : Nat
  now : Rat
  today : String
deriving DecidableEq

/-- The deduplication key of a triple: the `WHERE` clause of `_findTriple`. -/
def tripleKey (t : Triple) : String × String × String × String :=
  (t.subject, t.predicate, t.object, t.agentId)

/-- Does `t` match the `_findTriple` lookup for the given key? -/
def keyMatches (t : Triple) (s p o a : String) : Prop :=
  t.subject = s ∧ t.predicate = p ∧ t.object = o ∧ t.agentId = a

instance (t : Triple) (s p o a : String) : Decidable (keyMatches t s p o a) := by
  unfold keyMatches; infer_instance

/-- JS `confidence || 1.0`: `undefined` (here `none`) and `0` are falsy and
fall back to the default `1.0`. -/
def confOrDefault : Option Rat → Rat
  | none => 1
  | some c => if c = 0 then 1 else c

/-- JS `x || "main"` for the optional agent id. -/
def agentOrMain : Option String → String
  | none => "main"
  | some a => a

/-- `_updateTripleConfidence` applied during `addTriple`'s dedup branch:
`UPDATE triples SET confidence = MAX(confidence, ?), updated_at = datetime('now')
WHERE id = ?`. -/
def bumpConfidence (now : Rat) (confidence : Option Rat) (tid : Nat) (u : Triple) : Triple :=
  if u.id = tid then
    { u with confidence := max u.confidence (confOrDefault confidence), updatedAt := now }
  else u

/-- The fresh row the `none` branch of `addTriple` inserts. -/
def newTripleOf (st : GraphState) (subject predicate object : String)
    (confidence : Option Rat) (sourceExchangeId : Option String)
    (sourceDate : Option String) (agentId : Option String)
    (pendingResolution : Bool) : Triple :=
  { id := st.nextTripleId
    subject := normalizeEntityId subject
    predicate := predicate
    object := normalizeEntityId object
    confidence := confOrDefault confidence
    sourceExchangeId := sourceExchangeId
    sourceDate := sourceDate.getD st.today
    createdAt := st.now
    updatedAt := st.now
    agentId := agentOrMain agentId
    pendingResolution := pendingResolution }

/-- `GraphStore.addTriple`: normalize subject/object, look up an existing
(subject, predicate, object, agent) row (`_findTriple`, first match in rowid
order); if found run `_updateTripleConfidence` and return its id, otherwise
insert a fresh row and return `lastInsertRowid`. -/
def addTriple (st : GraphState) (subject predicate object : String)
    (confidence : Option Rat) (sourceExchangeId : Option String)
    (sourceDate : Option String) (agentId : Option String)
    (pendingResolution : Bool) : GraphState × Nat :=
  match st.triples.find? (fun t => decide (keyMatches t (normalizeEntityId subject)
      predicate (normalizeEntityId object) (agentOrMain agentId))) with
  | some t =>
      ({ st with triples := st.triples.map (bumpConfidence st.now confidence t.id) }, t.id)
  | none =>
      ({ st with
          triples := st.triples ++ [newTripleOf st subject predicate object confidence
            sourceExchangeId sourceDate agentId pendingResolution]
          nextTripleId := st.nextTripleId + 1 }, st.nextTripleId)

/-- `GraphStore.upsertEntity`: `INSERT ... ON CONFLICT(id) DO UPDATE` — the
conflict target is the global primary key `id`, with no agent filter. -/
def upsertEntity (st : GraphState) (name : String) (type : Option String)
    (agentId : Option String) : GraphState × String :=
  let id := normalizeEntityId name
  if st.entities.any (fun e => e.id = id) then
    ({ st with entities := st.entities.map (fun e =>
        if e.id = id then { e with lastSeen := st.now, mentionCount := e.mentionCount + 1 }
        else e) }, id)
  else
    ({ st with entities := st.entities ++ [{
        id := id
        canonicalName := name
        entityType := type.getD "CONCEPT"
        firstSeen := st.now
        lastSeen := st.now
        mentionCount := 1
        aliases := []
        agentId := agentOrMain agentId }] }, id)

/-- `_upsertCooccurrence`: keyed on the (already sorted) pair, no agent column. -/
def upsertCooccurrence (st : GraphState) (a b : String) : GraphState :=
  if st.coocs.any (fun c => c.entityA = a ∧ c.entityB = b) then
    { st with coocs := st.coocs.map (fun c =>
        if c.entityA = a ∧ c.entityB = b then
          { c with count := c.count + 1, lastSeen := st.now }
        else c) }
  else
    { st with coocs := st.coocs ++ [{ entityA := a, entityB := b, count := 1, lastSeen := st.now }] }

/-- Lexicographic code-unit comparison of char lists, modelling the default JS
`Array.prototype.sort()` comparator on strings. -/
def charListLe : List Char → List Char → Bool
  | [], _ => true
  | _ :: _, [] => false
  | a :: as, b :: bs =>
      if a.toNat < b.toNat then true
      else if a.toNat = b.toNat then charListLe as bs
      else false

/-- JS `[a, b].sort()` for a two-element string array. -/
def sortPair (a b : String) : String × String :=
  if charListLe a.toList b.toList then (a, b) else (b, a)

/-- `GraphStore.decayStaleTriples`: halve the confidence of the agent's triples
with `confidence > 0.1` whose `updated_at` lies more than `halfLifeDays` days in
the past (`julianday('now') - julianday(updated_at) > halfLifeDays`); the SQL
sets `updated_at = updated_at`, so the timestamp is unchanged.  Returns the
updated store and `result.changes`. -/
def decayStaleTriples (st : GraphState) (agentId : Option String)
    (halfLifeDays : Rat) : GraphState × Nat :=
  let aid := agentOrMain agentId
  let cond := fun t : Triple =>
    t.agentId = aid ∧ t.confidence > 1/10 ∧ st.now - t.updatedAt > halfLifeDays
  ({ st with triples := st.triples.map (fun t =>
      if cond t then { t with confidence := t.confidence * (1/2) } else t) },
   (st.triples.filter (fun t => decide (cond t))).length)

/-- Sort a list of triples by `updated_at DESC` (`List.mergeSort` is stable,
matching SQLite's behaviour up to the unspecified order of ties). -/
def sortByUpdatedDesc (l : List Triple) : List Triple :=
  l.mergeSort (fun a b => decide (b.updatedAt ≤ a.updatedAt))

/-- `_getTriplesForSubject`: subject + agent filter, `ORDER BY updated_at DESC
LIMIT lim`. -/
def getTriplesForSubject (st : GraphState) (id aid : String) (lim : Nat) : List Triple :=
  (sortByUpdatedDesc (st.triples.filter (fun t => decide (t.subject = id ∧ t.agentId = aid)))).take lim

/-- `_getTriplesForObject`: object + agent filter, `ORDER BY updated_at DESC
LIMIT lim`. -/
def getTriplesForObject (st : GraphState) (id aid : String) (lim : Nat) : List Triple :=
  (sortByUpdatedDesc (st.triples.filter (fun t => decide (t.object = id ∧ t.agentId = aid)))).take lim

/-- The `seen`-set deduplication loop of `getTriplesFor`: keep the first
occurrence of each triple id. -/
def dedupById (seen : List Nat) : List Triple → List Triple
  | [] => []
  | t :: ts => if t.id ∈ seen then dedupById seen ts else t :: dedupById (t.id :: seen) ts

/-- `GraphStore.getTriplesFor`: fetch the subject-side and object-side matches
(each half sorted and limited separately), concatenate them and de-duplicate by
triple id. -/
def getTriplesFor (st : GraphState) (entityName : String) (agentId : Option String)
    (limit : Option Nat) : List Triple :=
  let id := normalizeEntityId entityName
  let aid := agentOrMain agentId
  let lim := match limit with | none => 50 | some 0 => 50 | some l => l
  dedupById [] (getTriplesForSubject st id aid lim ++ getTriplesForObject st id aid lim)

/-- Sort co-occurrence rows by `count DESC`. -/
def sortByCountDesc (l : List Cooc) : List Cooc :=
  l.mergeSort (fun a b => decide (b.count ≤ a.count))

/-- `GraphStore.getCooccurrences`: rows touching the normalized entity id,
`ORDER BY count DESC LIMIT lim` — note the query has no agent filter. -/
def getCooccurrences (st : GraphState) (entityName : String) (limit : Option Nat) : List Cooc :=
  let id := normalizeEntityId entityName
  let lim := match limit with | none => 20 | some 0 => 20 | some l => l
  (sortByCountDesc (st.coocs.filter (fun c => decide (c.entityA = id ∨ c.entityB = id)))).take lim

/-- `SELECT COUNT(*) FROM triples WHERE agent_id = ?`. -/
def countTriples (st : GraphState) (aid : String) : Nat :=
  (st.triples.filter (fun t => decide (t.agentId = aid))).length

/-- `SELECT COUNT(*) FROM entities WHERE agent_id = ?`. -/
def countEntities (st : GraphState) (aid : String) : Nat :=
  (st.entities.filter (fun e => decide (e.agentId = aid))).length

/-- An `entities[i]` element of a `writeExchange` batch. -/
structure ExchangeEntity where
  name : String
  type : Option String
deriving DecidableEq

/-- A `triples[i]` element of a `writeExchange` batch. -/
structure ExchangeTriple where
  subject : String
  predicate : String
  object : String
  confidence : Option Rat
deriving DecidableEq

/-- The entity loop of `writeExchange` (fault-free). -/
def applyEntities (aid : String) : GraphState → List ExchangeEntity → GraphState
  | st, [] => st
  | st, e :: es => applyEntities aid (upsertEntity st e.name e.type (some aid)).1 es

/-- The triple loop of `writeExchange` (fault-free), collecting the returned ids. -/
def applyTriples (aid : String) (exId : Option String) (date : String) :
    GraphState → List ExchangeTriple → GraphState × List Nat
  | st, [] => (st, [])
  | st, t :: ts =>
      let r := addTriple st t.subject t.predicate t.object t.confidence exId (some date) (some aid) false
      let rest := applyTriples aid exId date r.1 ts
      (rest.1, r.2 :: rest.2)

/-- The co-occurrence loop of `writeExchange` (fault-free): normalize both
names, sort the pair (JS array sort) and upsert. -/
def applyCoocs : GraphState → List (String × String) → GraphState
  | st, [] => st
  | st, (a, b) :: rest =>
      let p := sortPair (normalizeEntityId a) (normalizeEntityId b)
      applyCoocs (upsertCooccurrence st p.1 p.2) rest

/-- The body of `GraphStore.writeExchange` run without any storage fault:
entity upserts, then triple adds, then co-occurrence bumps; returns the ids of
all triples touched. -/
def writeExchangeApply (st : GraphState) (entities : List ExchangeEntity)
    (triples : List ExchangeTriple) (cooccurrences : List (String × String))
    (agentId : Option String) (sourceExchangeId : Option String)
    (sourceDate : Option String) : GraphState × List Nat :=
  ((applyCoocs (applyTriples (agentOrMain agentId) sourceExchangeId (sourceDate.getD st.today)
      (applyEntities (agentOrMain agentId) st entities) triples).1 cooccurrences),
   (applyTriples (agentOrMain agentId) sourceExchangeId (sourceDate.getD st.today)
      (applyEntities (agentOrMain agentId) st entities) triples).2)

/-- Storage-fault oracle: `none` = the storage layer never fails; `some n` = the
n-th primitive write from now raises a storage error.  `tick` spends one write:
`none` result means this write raises. -/
def tick : Option Nat → Option (Option Nat)
  | none => some none
  | some 0 => none
  | some (n+1) => some (some n)

/-- Entity loop under the fault oracle. -/
def runEntities (aid : String) :
    GraphState → List ExchangeEntity → Option Nat → Option (GraphState × Option Nat)
  | st, [], b => some (st, b)
  | st, e :: es, b =>
      match tick b with
      | none => none
      | some b' => runEntities aid (upsertEntity st e.name e.type (some aid)).1 es b'

/-- Triple loop under the fault oracle. -/
def runTriples (aid : String) (exId : Option String) (date : String) :
    GraphState → List ExchangeTriple → Option Nat → Option (GraphState × List Nat × Option Nat)
  | st, [], b => some (st, [], b)
  | st, t :: ts, b =>
      match tick b with
      | none => none
      | some b' =>
          let r := addTriple st t.subject t.predicate t.object t.confidence exId (some date) (some aid) false
          match runTriples aid exId date r.1 ts b' with
          | none => none
          | some (st', ids, b'') => some (st', r.2 :: ids, b'')

/-- Co-occurrence loop under the fault oracle. -/
def runCoocs : GraphState → List (String × String) → Option Nat → Option (GraphState × Option Nat)
  | st, [], b => some (st, b)
  | st, (a, b) :: rest, bu =>
      match tick bu with
      | none => none
      | some bu' =>
          let p := sortPair (normalizeEntityId a) (normalizeEntityId b)
          runCoocs (upsertCooccurrence st p.1 p.2) rest bu'

/-- `GraphStore.writeExchange`: the whole batch runs inside
`this.db.transaction(...)` — if any primitive write raises (modelled by the
fault oracle), better-sqlite3 rolls the transaction back, so the store state
observed after the call is the state before it and the error propagates;
otherwise the batch commits and the triple ids are returned. -/
def writeExchange (st : GraphState) (entities : List ExchangeEntity)
    (triples : List ExchangeTriple) (cooccurrences : List (String × String))
    (agentId : Option String) (sourceExchangeId : Option String)
    (sourceDate : Option String) (budget : Option Nat) :
    GraphState × Except Unit (List Nat) :=
  match runEntities (agentOrMain agentId) st entities budget with
  | none => (st, Except.error ())
  | some (st1, b1) =>
      match runTriples (agentOrMain agentId) sourceExchangeId (sourceDate.getD st.today)
          st1 triples b1 with
      | none => (st, Except.error ())
      | some (st2, ids, b2) =>
          match runCoocs st2 cooccurrences b2 with
          | none => (st, Except.error ())
          | some (st3, _) => (st3, Except.ok ids)

/-- JS `new Set([...])` / `DISTINCT` iteration order: first occurrence wins. -/
def dedupKeepFirst {α : Type} [DecidableEq α] (l : List α) : List α :=
  l.foldl (fun acc x => if x ∈ acc then acc else acc ++ [x]) []

/-- `SELECT * FROM entities WHERE id = ?` — the lookup has no agent filter. -/
def getEntity (st : GraphState) (id : String) : Option Entity :=
  st.entities.find? (fun e => decide (e.id = id))

/-- Configuration of the `EntityResolver` (constructor defaults). -/
structure ResolverConfig where
  assumeThreshold : Rat := 4/5
  askThreshold : Rat := 2/5
  pendingMaxAgeDays : Int := 30
  recencyBoostDays : Int := 7
  cooccurrenceMinCount : Nat := 2
deriving DecidableEq

/-- `EntityResolver._daysSinceLastSeen`: `Math.floor((now - lastSeen) / dayMs)`,
with both clocks in days here.  (`last_seen` is always populated by the schema
default, so the JS null-guard returning 999 is unreachable.) -/
def daysSinceLastSeen (st : GraphState) (e : Entity) : Int :=
  Rat.floor (st.now - e.lastSeen)

/-- `UPDATE triples SET pending_resolution = 0 WHERE (subject = ? OR object = ?)
AND agent_id = ?`. -/
def clearPendingFor (st : GraphState) (entityId agentId : String) : GraphState :=
  { st with triples := st.triples.map (fun t =>
      if (t.subject = entityId ∨ t.object = entityId) ∧ t.agentId = agentId then
        { t with pendingResolution := false }
      else t) }

/-- The distinct entity ids referenced by pending triples of the agent
(`SELECT DISTINCT subject ... UNION SELECT DISTINCT object ...`). -/
def pendingEntityIds (st : GraphState) (agentId : String) : List String :=
  let pend := st.triples.filter (fun t => t.pendingResolution && decide (t.agentId = agentId))
  dedupKeepFirst (pend.map (fun t => t.subject) ++ pend.map (fun t => t.object))

/-- The per-entity loop of `EntityResolver.processPending`, threading the
(resolved, expired) counters. -/
def processPendingLoop (cfg : ResolverConfig) (agentId : String) :
    GraphState → List String → Nat → Nat → GraphState × Nat × Nat
  | st, [], r, x => (st, r, x)
  | st, eid :: rest, r, x =>
      match getEntity st eid with
      | none => processPendingLoop cfg agentId st rest r x
      | some e =>
          if e.mentionCount > 1 ∨ daysSinceLastSeen st e < cfg.recencyBoostDays then
            processPendingLoop cfg agentId (clearPendingFor st eid agentId) rest (r + 1) x
          else if daysSinceLastSeen st e > cfg.pendingMaxAgeDays then
            processPendingLoop cfg agentId (clearPendingFor st eid agentId) rest r (x + 1)
          else
            processPendingLoop cfg agentId st rest r x

/-- `EntityResolver.processPending`. -/
def processPending (st : GraphState) (cfg : ResolverConfig) (agentId : String) :
    GraphState × Nat × Nat :=
  processPendingLoop cfg agentId st (pendingEntityIds st agentId) 0 0

/-- `EntityResolver.mergeEntities`: union aliases (adding the merged entity's
canonical name, excluding the kept canonical name), accumulate mention counts,
rewrite triples on the subject side then the object side, clear
`pending_resolution` on triples touching `keepId`, delete the merged entity.
Returns the number of triples rewritten. -/
def mergeEntities (st : GraphState) (keepId mergeId agentId : String) : GraphState × Nat :=
  match st.entities.find? (fun e => decide (e.id = keepId)),
        st.entities.find? (fun e => decide (e.id = mergeId)) with
  | some keep, some merge =>
      let allAliases := (dedupKeepFirst (keep.aliases ++ merge.aliases ++ [merge.canonicalName])).filter
        (fun a => a ≠ keep.canonicalName)
      let st1 : GraphState := { st with entities := st.entities.map (fun e =>
          if e.id = keepId then
            { e with aliases := allAliases, mentionCount := e.mentionCount + merge.mentionCount }
          else e) }
      let subjCount := (st1.triples.filter (fun t =>
          decide (t.subject = mergeId ∧ t.agentId = agentId))).length
      let st2 : GraphState := { st1 with triples := st1.triples.map (fun t =>
          if t.subject = mergeId ∧ t.agentId = agentId then
            { t with subject := keepId, updatedAt := st.now }
          else t) }
      let objCount := (st2.triples.filter (fun t =>
          decide (t.object = mergeId ∧ t.agentId = agentId))).length
      let st3 : GraphState := { st2 with triples := st2.triples.map (fun t =>
          if t.object = mergeId ∧ t.agentId = agentId then
            { t with object := keepId, updatedAt := st.now }
          else t) }
      let st4 : GraphState := { st3 with triples := st3.triples.map (fun t =>
          if (t.subject = keepId ∨ t.object = keepId) ∧ t.agentId = agentId then
            { t with pendingResolution := false }
          else t) }
      let st5 : GraphState := { st4 with entities := st4.entities.filter (fun e => decide (e.id ≠ mergeId)) }
      (st5, subjCount + objCount)
  | _, _ => (st, 0)

/-- Is `needle` a prefix of `hay`?  (Executable matcher used by the LIKE model.) -/
def segAt : List Char → List Char → Bool
  | [], _ => true
  | _ :: _, [] => false
  | a :: as, b :: bs => a == b && segAt as bs

/-- Is `needle` a contiguous segment of `hay`?  Models SQL
`x LIKE '%' || needle || '%'` for a wildcard-free needle.  Entity ids may
contain `_`, which LIKE treats as a one-character wildcard; a wildcard only
makes the real check match a superset of what this literal model matches, so
every revisit the model blocks is also blocked by the SQL. -/
def hasSeg (needle : List Char) : List Char → Bool
  | [] => segAt needle []
  | c :: cs => segAt needle (c :: cs) || hasSeg needle cs

/-- `'/' || e || '/'`: the delimiter-wrapped form in which every visited entity
occurs in the CTE's path accumulator. -/
def slashWrap (e : String) : List Char :=
  ('/' :: e.toList) ++ ['/']

/-- The seed path `'/' || subject || '/' || predicate || '/' || object || '/'`. -/
def seedPath (s p o : String) : List Char :=
  ('/' :: s.toList) ++ ('/' :: p.toList) ++ ('/' :: o.toList) ++ ['/']

/-- One row of the recursive CTE `hop(entity, depth, path, source_exchange_id,
score)`.  `seq` is a specification-only ghost field recording the entity visit
sequence the path encodes; it is maintained in lockstep with `path` and does
not influence the computation. -/
structure HopRow where
  entity : String
  depth : Nat
  path : List Char
  seq : List String
  sourceExchangeId : Option String
  score : Rat
deriving DecidableEq

/-- The seed branch of the CTE: every triple of the agent touching a query
entity, with confidence at least the traversal threshold, scored
`confidence * decay` at depth 1. -/
def seedRows (st : GraphState) (seeds : List String) (aid : String)
    (d minConf : Rat) : List HopRow :=
  (st.triples.filter (fun t =>
      decide ((t.subject ∈ seeds ∨ t.object ∈ seeds) ∧ t.agentId = aid ∧ minConf ≤ t.confidence))).map
    (fun t =>
      if t.subject ∈ seeds then
        { entity := t.object, depth := 1, path := seedPath t.subject t.predicate t.object,
          seq := [t.subject, t.object], sourceExchangeId := t.sourceExchangeId,
          score := t.confidence * d }
      else
        { entity := t.subject, depth := 1, path := seedPath t.subject t.predicate t.object,
          seq := [t.object, t.subject], sourceExchangeId := t.sourceExchangeId,
          score := t.confidence * d })

/-- `EXISTS (SELECT 1 FROM entities e WHERE e.id = ? AND e.agent_id = ?)`. -/
def entityRegistered (st : GraphState) (aid e : String) : Bool :=
  st.entities.any (fun en => decide (en.id = e ∧ en.agentId = aid))

/-- The recursive branch of the CTE applied to one hop row: follow every edge
touching the row's entity (either direction), subject to the depth bound, the
agent and confidence filters, the registered-entity quality gate and the
path-membership cycle check `h.path NOT LIKE '%/' || next || '/%'`. -/
def expandRow (st : GraphState) (aid : String) (d minConf : Rat) (maxHops : Nat)
    (h : HopRow) : List HopRow :=
  if h.depth < maxHops ∧ entityRegistered st aid h.entity = true then
    (st.triples.filter (fun t =>
        decide (t.subject = h.entity ∨ t.object = h.entity) &&
        decide (t.agentId = aid) && decide (minConf ≤ t.confidence) &&
        !(hasSeg (slashWrap (if t.subject = h.entity then t.object else t.subject)) h.path))).map
      (fun t =>
        let nxt := if t.subject = h.entity then t.object else t.subject
        { entity := nxt, depth := h.depth + 1,
          path := h.path ++ (t.predicate.toList ++ ('/' :: nxt.toList) ++ ['/']),
          seq := h.seq ++ [nxt],
          sourceExchangeId := t.sourceExchangeId,
          score := h.score * d })
  else []

/-- Iterate the recursive branch level by level (`UNION ALL` keeps duplicates).
The fuel argument bounds the number of expansion rounds; `expandRow` itself
stops at `depth < maxHops`, so fuel `maxHops` collects the full fixpoint. -/
def hopFrontiers (st : GraphState) (aid : String) (d minConf : Rat) (maxHops : Nat) :
    Nat → List HopRow → List HopRow
  | 0, frontier => frontier
  | n + 1, frontier =>
      frontier ++ hopFrontiers st aid d minConf maxHops n
        (frontier.flatMap (expandRow st aid d minConf maxHops))

/-- All rows the recursive CTE generates for the given seeds. -/
def hopRows (st : GraphState) (seeds : List String) (aid : String) (maxHops : Nat)
    (d minConf : Rat) : List HopRow :=
  hopFrontiers st aid d minConf maxHops maxHops (seedRows st seeds aid d minConf)

/-- `SUM(score)` over all hop rows carrying the given exchange id. -/
def sumScores (rows : List HopRow) (ex : String) : Rat :=
  ((rows.filter (fun r => decide (r.sourceExchangeId = some ex))).map (fun r => r.score)).sum

/-- The distinct non-null exchange ids among the hop rows (`GROUP BY`). -/
def exchangeIdsOf (rows : List HopRow) : List String :=
  dedupKeepFirst (rows.filterMap (fun r => r.sourceExchangeId))

/-- `GraphSearcher.searchMultiHop`: run the CTE, group the rows by non-null
source exchange id, sum the scores per group, order by total score descending
and keep `maxResults * 2` groups.  (The JS try/catch that degrades to an empty
map on a failing query has no counterpart here: the pure model cannot fail.) -/
def searchMultiHop (st : GraphState) (entityIds : List String) (aid : String)
    (maxHops : Nat) (decay : Rat) (minConf : Rat) (maxResults : Nat) :
    List (String × Rat) :=
  if entityIds = [] then []
  else
    let rows := hopRows st entityIds aid maxHops decay minConf
    ((exchangeIdsOf rows).map (fun ex => (ex, sumScores rows ex))).mergeSort
      (fun a b => decide (b.2 ≤ a.2)) |>.take (maxResults * 2)

/-- `results.set(key, Math.max(existing || 0, v))` on an insertion-ordered map. -/
def maxMergeMeta (m : List (String × Rat)) (k : String) (v : Rat) : List (String × Rat) :=
  if m.any (fun p => decide (p.1 = k)) then
    m.map (fun p => if p.1 = k then (p.1, max p.2 v) else p)
  else m ++ [(k, max 0 v)]

/-- The 2-predicate meta-path join (`t1 JOIN t2 ON t2.subject = t1.object`),
restricted to rows with a usable source exchange id, scored
`t1.confidence * t2.confidence * weight`, `LIMIT maxResults`. -/
def metaRows2 (st : GraphState) (entityIds : List String) (aid : String)
    (p0 p1 : String) (w : Rat) (maxResults : Nat) : List (String × Rat) :=
  ((st.triples.filter (fun t1 =>
      decide (t1.subject ∈ entityIds ∧ t1.predicate = p0 ∧ t1.agentId = aid))).flatMap
    (fun t1 => (st.triples.filter (fun t2 =>
        decide (t2.subject = t1.object ∧ t2.predicate = p1 ∧ t2.agentId = aid ∧
          t2.sourceExchangeId ≠ none ∧ t2.sourceExchangeId ≠ some ""))).map
      (fun t2 => (t2.sourceExchangeId.getD "", t1.confidence * t2.confidence * w)))).take maxResults

/-- The 3-predicate meta-path join. -/
def metaRows3 (st : GraphState) (entityIds : List String) (aid : String)
    (p0 p1 p2 : String) (w : Rat) (maxResults : Nat) : List (String × Rat) :=
  ((st.triples.filter (fun t1 =>
      decide (t1.subject ∈ entityIds ∧ t1.predicate = p0 ∧ t1.agentId = aid))).flatMap
    (fun t1 => (st.triples.filter (fun t2 =>
        decide (t2.subject = t1.object ∧ t2.predicate = p1 ∧ t2.agentId = aid))).flatMap
      (fun t2 => (st.triples.filter (fun t3 =>
          decide (t3.subject = t2.object ∧ t3.predicate = p2 ∧ t3.agentId = aid ∧
            t3.sourceExchangeId ≠ none ∧ t3.sourceExchangeId ≠ some ""))).map
        (fun t3 => (t3.sourceExchangeId.getD "",
          t1.confidence * t2.confidence * t3.confidence * w))))).take maxResults

/-- The rows contributed by one active pattern; sequences of length other than
2 or 3 are skipped. -/
def patternRows (st : GraphState) (entityIds : List String) (aid : String)
    (maxResults : Nat) (p : MetaPattern) : List (String × Rat) :=
  match p.predicates with
  | [a, b] => metaRows2 st entityIds aid a b p.weight maxResults
  | [a, b, c] => metaRows3 st entityIds aid a b c p.weight maxResults
  | _ => []

/-- `GraphSearcher.searchMetaPaths`: per-exchange maximum over all patterns. -/
def searchMetaPaths (st : GraphState) (entityIds : List String) (aid : String)
    (patterns : List MetaPattern) (maxResults : Nat) : List (String × Rat) :=
  if entityIds = [] then []
  else
    patterns.foldl (fun acc p =>
      (patternRows st entityIds aid maxResults p).foldl
        (fun acc2 kv => maxMergeMeta acc2 kv.1 kv.2) acc) []

/-- `GraphStore.getActivePatterns`: active rows of the agent, `ORDER BY weight
DESC`, with the JSON `predicates` column already decoded. -/
def getActivePatterns (st : GraphState) (aid : String) : List MetaPattern :=
  (st.patterns.filter (fun p => p.active && decide (p.agentId = aid))).mergeSort
    (fun a b => decide (b.weight ≤ a.weight))

/-- Effective retrieval configuration of `GraphSearcher` (constructor defaults). -/
structure SearchConfig where
  maxResults : Nat := 20
  maxHops : Nat := 1
  hopDecay : Rat := 7/10
  minTraversalConfidence : Rat := 3/5
deriving DecidableEq

/-- One element of the `exchanges` array returned by `search`. -/
structure ExchangeResult where
  id : String
  score : Rat
  sharedEntityCount : Nat
  sharedEntities : List String
  maxConfidence : Rat
  date : Option String
deriving DecidableEq

/-- The multi-hop branch of `GraphSearcher.search`, entered once the query has
been reduced to a list of normalized seed entity ids (entity extraction from
raw query text is an external collaborator per the spec): run the hop CTE and
the meta-path patterns, merge them with per-exchange `max`, format, sort by
score descending and truncate to `limit`. -/
def searchWithSeeds (st : GraphState) (entityIds : List String) (aid : String)
    (cfg : SearchConfig) (limit : Nat) : List ExchangeResult :=
  let hop := searchMultiHop st entityIds aid cfg.maxHops cfg.hopDecay
    cfg.minTraversalConfidence cfg.maxResults
  let pats := getActivePatterns st aid
  let meta := searchMetaPaths st entityIds aid pats cfg.maxResults
  let merged := meta.foldl (fun acc kv => maxMergeMeta acc kv.1 kv.2) hop
  ((merged.map (fun kv =>
      { id := kv.1, score := kv.2, sharedEntityCount := entityIds.length,
        sharedEntities := entityIds, maxConfidence := kv.2,
        date := none : ExchangeResult })).mergeSort
    (fun a b => decide (b.score ≤ a.score))).take limit

/-- `mention.toLowerCase().trim()` (ASCII model). -/
def toLowerTrim (s : String) : String :=
  String.mk ((((s.toList.map Char.toLower).dropWhile isWsChar).reverse.dropWhile isWsChar).reverse)

/-- Case-insensitive ASCII prefix test, modelling `canonical_name LIKE pfx || '%'`
(SQLite LIKE is case-insensitive on ASCII; the prefix is taken literally, see
the wildcard remark at `hasSeg`). -/
def likeStartsWith (pfx s : String) : Bool :=
  segAt (pfx.toList.map Char.toLower) (s.toList.map Char.toLower)

/-- `_findEntitiesByPrefix`: `LIMIT 10`, filtered to the agent. -/
def entitiesMatchingPfx (st : GraphState) (pfx : String) (aid : String) : List Entity :=
  (st.entities.filter (fun e => likeStartsWith pfx e.canonicalName && decide (e.agentId = aid))).take 10

/-- `_recentEntities`: the agent's entities, `ORDER BY last_seen DESC LIMIT lim`. -/
def recentEntities (st : GraphState) (aid : String) (lim : Nat) : List Entity :=
  ((st.entities.filter (fun e => decide (e.agentId = aid))).mergeSort
    (fun a b => decide (b.lastSeen ≤ a.lastSeen))).take lim

/-- JS `hay.includes(needle)`. -/
def strContains (hay needle : String) : Bool :=
  hasSeg needle.toList hay.toList

/-- `EntityResolver._findCandidates`: prefix matches on the canonical name over
a shrunk prefix (`substring(0, max(3, ceil(len * 0.6)))`), then substring
matches of the mention against canonical names and aliases of the 200 most
recent entities, de-duplicated by entity id in discovery order. -/
def findCandidates (st : GraphState) (mention : String) (agentId : String) : List Entity :=
  let normalizedMention := toLowerTrim mention
  let pfx := String.mk (normalizedMention.toList.take
    (max 3 ((3 * normalizedMention.length + 4) / 5)))
  let step1 := (entitiesMatchingPfx st pfx agentId).foldl
    (fun acc r => if acc.any (fun c => decide (c.id = r.id)) then acc else acc ++ [r]) []
  (recentEntities st agentId 200).foldl (fun acc e =>
    if acc.any (fun c => decide (c.id = e.id)) then acc
    else
      let canonLower := String.mk (e.canonicalName.toList.map Char.toLower)
      if strContains canonLower normalizedMention || strContains normalizedMention canonLower then
        acc ++ [e]
      else if e.aliases.any (fun al =>
          let alLower := String.mk (al.toList.map Char.toLower)
          strContains alLower normalizedMention || strContains normalizedMention alLower) then
        acc ++ [e]
      else acc) step1

/-- `EntityResolver._countContextCooccurrences`: for each context entity, fetch
the single top co-occurrence row touching the smaller element of the sorted
pair (`LIMIT 1`, `ORDER BY count DESC`) and add its count if it is exactly the
candidate/context pair. -/
def countContextCooccurrences (st : GraphState) (candidateId : String)
    (contextEntities : List String) : Nat :=
  contextEntities.foldl (fun total ctxName =>
    let ctxId := normalizeEntityId ctxName
    let p := sortPair candidateId ctxId
    let coocs := (sortByCountDesc (st.coocs.filter (fun c =>
        decide (c.entityA = p.1 ∨ c.entityB = p.1)))).take 1
    total + ((coocs.filter (fun c =>
        decide ((c.entityA = p.1 ∧ c.entityB = p.2) ∨ (c.entityA = p.2 ∧ c.entityB = p.1)))).map
      (fun c => c.count)).sum) 0

/-- `EntityResolver._scoreCandidate`: base 0.5, plus a recency boost (+0.3
within `recencyBoostDays`, else +0.1 within 30 days), a context co-occurrence
boost (+0.2 at the minimum count, else +0.1 if any), and a mention-frequency
boost (+0.1 above 10 mentions, else +0.05 above 3), capped at 1.0. -/
def scoreCandidate (st : GraphState) (cfg : ResolverConfig) (candidate : Entity)
    (contextEntities : List String) : Rat :=
  let base : Rat := 1/2
  let d := daysSinceLastSeen st candidate
  let s1 := if d < cfg.recencyBoostDays then base + 3/10
            else if d < 30 then base + 1/10
            else base
  let s2 := if contextEntities ≠ [] then
              let coocCount := countContextCooccurrences st candidate.id contextEntities
              if coocCount ≥ cfg.cooccurrenceMinCount then s1 + 1/5
              else if coocCount > 0 then s1 + 1/10
              else s1
            else s1
  let s3 := if candidate.mentionCount > 10 then s2 + 1/10
            else if candidate.mentionCount > 3 then s2 + 1/20
            else s2
  min 1 s3

/-- A candidate together with its `resolutionScore` (the JS object spread). -/
structure ScoredCandidate where
  entity : Entity
  resolutionScore : Rat
deriving DecidableEq

/-- The result record of `EntityResolver.resolve`.  The human-readable
`graphNote` string built for ask-tier results is pure text formatting and is
not modelled. -/
structure ResolveResult where
  tier : String
  confidence : Rat
  entity : Option Entity
  candidates : List Entity
deriving DecidableEq

/-- `EntityResolver._singleCandidateResult`. -/
def singleCandidateResult (cfg : ResolverConfig) (c : ScoredCandidate) : ResolveResult :=
  if c.resolutionScore ≥ cfg.assumeThreshold then
    { tier := "assume", confidence := c.resolutionScore, entity := some c.entity, candidates := [] }
  else if c.resolutionScore < cfg.askThreshold then
    { tier := "ask", confidence := c.resolutionScore, entity := none, candidates := [c.entity] }
  else
    { tier := "defer", confidence := c.resolutionScore, entity := some c.entity, candidates := [] }

/-- `EntityResolver._multipleCandidateResult` (only ever called with at least
two scored candidates; the catch-all arm is unreachable). -/
def multipleCandidateResult (st : GraphState) (cfg : ResolverConfig)
    (sorted : List ScoredCandidate) : ResolveResult :=
  match sorted with
  | best :: second :: _ =>
      let dominance : Rat := (best.entity.mentionCount : Rat) / (max 1 second.entity.mentionCount : Rat)
      if dominance > 5 ∧ daysSinceLastSeen st best.entity < cfg.recencyBoostDays then
        { tier := "assume", confidence := 17/20, entity := some best.entity, candidates := [] }
      else
        { tier := "ask", confidence := 3/10, entity := none,
          candidates := (sorted.take 3).map (fun s => s.entity) }
  | _ => { tier := "ask", confidence := 3/10, entity := none, candidates := [] }

/-- `EntityResolver.resolve`: exact id match → `exact`; no candidates → `new`;
otherwise score and sort the candidates (descending, stable) and dispatch on
whether there is a single candidate. -/
def resolve (st : GraphState) (cfg : ResolverConfig) (mention : String)
    (agentId : String) (contextEntities : List String) : ResolveResult :=
  match getEntity st (normalizeEntityId mention) with
  | some existing =>
      { tier := "exact", confidence := 1, entity := some existing, candidates := [] }
  | none =>
      let candidates := findCandidates st mention agentId
      if candidates = [] then
        { tier := "new", confidence := 1, entity := none, candidates := [] }
      else
        let scored := (candidates.map (fun c =>
            ({ entity := c, resolutionScore := scoreCandidate st cfg c contextEntities }
              : ScoredCandidate))).mergeSort
          (fun a b => decide (b.resolutionScore ≤ a.resolutionScore))
        match scored with
        | [single] => singleCandidateResult cfg single
        | _ => multipleCandidateResult st cfg scored

/-- Configuration of `PatternDiscovery` (constructor defaults).  `maxOverlap`
models the `maxOverlapRatio` option. -/
structure DiscoveryConfig where
  maxActivePatterns : Nat := 12
  maxStaticPatterns : Nat := 5
  minYield : Nat := 3
  maxOverlap : Rat := 9/10
  maxFanoutPerStep : Rat := 50
  maxCandidateLength : Nat := 3
deriving DecidableEq

/-- One row of `getPredicateStats` (`GROUP BY predicate`). -/
structure PredStat where
  predicate : String
  cnt : Nat
  uniqueSubjects : Nat
  uniqueObjects : Nat
  avgConfidence : Rat
deriving DecidableEq

/-- `GraphStore.getPredicateStats`: per-predicate count, distinct subject and
object counts and average confidence for the agent, `ORDER BY cnt DESC`. -/
def getPredicateStats (st : GraphState) (aid : String) : List PredStat :=
  let ts := st.triples.filter (fun t => decide (t.agentId = aid))
  ((dedupKeepFirst (ts.map (fun t => t.predicate))).map (fun p =>
    let tp := ts.filter (fun t => decide (t.predicate = p))
    { predicate := p
      cnt := tp.length
      uniqueSubjects := (dedupKeepFirst (tp.map (fun t => t.subject))).length
      uniqueObjects := (dedupKeepFirst (tp.map (fun t => t.object))).length
      avgConfidence := ((tp.map (fun t => t.confidence)).sum) / (tp.length : Rat) })).mergeSort
    (fun a b => decide (b.cnt ≤ a.cnt))

/-- The fanout of a predicate: `cnt / max(unique_subjects, 1)`, or 0 when the
predicate is not among the stats (JS `fanout[p]` = `undefined`; both 0 and
`undefined` are falsy in the `|| 1` product below). -/
def fanoutVal (stats : List PredStat) (p : String) : Rat :=
  match stats.find? (fun s => decide (s.predicate = p)) with
  | some s => (s.cnt : Rat) / (max s.uniqueSubjects 1 : Rat)
  | none => 0

/-- `fanout[p] < 10`: false when `fanout[p]` is `undefined` (NaN comparison). -/
def fanoutLow (stats : List PredStat) (p : String) : Bool :=
  match stats.find? (fun s => decide (s.predicate = p)) with
  | some s => decide ((s.cnt : Rat) / (max s.uniqueSubjects 1 : Rat) < 10)
  | none => false

/-- The qualifying predicates of stage 1: `cnt >= 5`. -/
def qualifyingStats (st : GraphState) (aid : String) : List PredStat :=
  (getPredicateStats st aid).filter (fun p => decide (p.cnt ≥ 5))

/-- Stage 2 of `discover`: every ordered 2-predicate sequence over the
qualifying predicates, plus every 3-sequence when at most 6 predicates qualify
and sequences of length 3 are allowed. -/
def discoverCandidates (st : GraphState) (cfg : DiscoveryConfig) (aid : String) :
    List (List String) :=
  let names := (qualifyingStats st aid).map (fun p => p.predicate)
  let two := names.flatMap (fun p1 => names.map (fun p2 => [p1, p2]))
  let three := if names.length ≤ 6 ∧ cfg.maxCandidateLength ≥ 3 then
      names.flatMap (fun p1 => names.flatMap (fun p2 => names.map (fun p3 => [p1, p2, p3])))
    else []
  two ++ three

/-- Stage 3 of `discover` (fanout cap): at least one predicate with fanout
below 10, and the product of fanouts below `maxFanoutPerStep ^ length`. -/
def fanoutSurvivors (st : GraphState) (cfg : DiscoveryConfig) (aid : String) :
    List (List String) :=
  let stats := qualifyingStats st aid
  (discoverCandidates st cfg aid).filter (fun preds =>
    preds.any (fun p => fanoutLow stats p) &&
    decide ((preds.foldl (fun acc p =>
        acc * (if fanoutVal stats p = 0 then 1 else fanoutVal stats p)) 1) <
      cfg.maxFanoutPerStep ^ preds.length))

/-- The smooth recency weight `1 / (1 + daysSinceUpdate / 90)` of one triple. -/
def recencyFactor (st : GraphState) (t : Triple) : Rat :=
  1 / (1 + (st.now - t.updatedAt) / 90)

/-- The joined (src, dst, path confidence) rows of `_evaluate2Step` before
`DISTINCT` and `LIMIT`. -/
def pairRows2 (st : GraphState) (aid : String) (p0 p1 : String) :
    List (String × String × Rat) :=
  (st.triples.filter (fun t1 => decide (t1.predicate = p0 ∧ t1.agentId = aid))).flatMap
    (fun t1 => (st.triples.filter (fun t2 =>
        decide (t2.subject = t1.object ∧ t2.predicate = p1 ∧ t2.agentId = aid))).map
      (fun t2 => (t1.subject, t2.object,
        t1.confidence * t2.confidence * recencyFactor st t1 * recencyFactor st t2)))

/-- The joined rows of `_evaluate3Step`. -/
def pairRows3 (st : GraphState) (aid : String) (p0 p1 p2 : String) :
    List (String × String × Rat) :=
  (st.triples.filter (fun t1 => decide (t1.predicate = p0 ∧ t1.agentId = aid))).flatMap
    (fun t1 => (st.triples.filter (fun t2 =>
        decide (t2.subject = t1.object ∧ t2.predicate = p1 ∧ t2.agentId = aid))).flatMap
      (fun t2 => (st.triples.filter (fun t3 =>
          decide (t3.subject = t2.object ∧ t3.predicate = p2 ∧ t3.agentId = aid))).map
        (fun t3 => (t1.subject, t3.object,
          t1.confidence * t2.confidence * t3.confidence *
            recencyFactor st t1 * recencyFactor st t2 * recencyFactor st t3))))

/-- Shared tail of `_evaluate2Step` / `_evaluate3Step`: `DISTINCT` rows capped
at 200; `null` when the yield is below `minYield`; otherwise the yield, the
overlap ratio (fraction of pairs already linked by a direct edge of any
predicate) and the average path confidence. -/
def evalStep (st : GraphState) (cfg : DiscoveryConfig) (aid : String)
    (rows : List (String × String × Rat)) : Option (Nat × Rat × Rat) :=
  let pr := (dedupKeepFirst rows).take 200
  if pr.length < cfg.minYield then none
  else
    let direct := pr.filter (fun r => st.triples.any (fun t =>
        decide (t.subject = r.1 ∧ t.object = r.2.1 ∧ t.agentId = aid)))
    let totalConf := (pr.map (fun r => r.2.2)).sum
    some (pr.length,
      (if pr.length > 0 then (direct.length : Rat) / (pr.length : Rat) else 1),
      (if pr.length > 0 then totalConf / (pr.length : Rat) else 0))

/-- `PatternDiscovery._evaluatePattern`: dispatch on the sequence length. -/
def evalPattern (st : GraphState) (cfg : DiscoveryConfig) (aid : String)
    (preds : List String) : Option (Nat × Rat × Rat) :=
  match preds with
  | [a, b] => evalStep st cfg aid (pairRows2 st aid a b)
  | [a, b, c] => evalStep st cfg aid (pairRows3 st aid a b c)
  | _ => none

/-- Stages 1–5 of `discover`: the candidates that qualify, survive the fanout
cap, are not already active, evaluate successfully and pass the novelty gate
(`overlapRatio <= maxOverlapRatio && yield >= minYield`), with their composite
score `yield * (1 - overlapRatio) * avgConfidence`. -/
def discoverScored (st : GraphState) (cfg : DiscoveryConfig) (aid : String) :
    List (List String × Nat × Rat × Rat) :=
  if (getPredicateStats st aid).length < 2 ∨ (qualifyingStats st aid).length < 2 then []
  else
    let existingKeys := (getActivePatterns st aid).map (fun p => p.predicates)
    ((fanoutSurvivors st cfg aid).filter (fun preds => preds ∉ existingKeys)).filterMap
      (fun preds =>
        match evalPattern st cfg aid preds with
        | none => none
        | some (y, ov, avg) =>
            if ov ≤ cfg.maxOverlap ∧ y ≥ cfg.minYield then
              some (preds, y, ov, (y : Rat) * (1 - ov) * avg)
            else none)

/-- Stage 6 of `discover`: rank by composite score descending and keep as many
as there are free discovery slots. -/
def discoverToSave (st : GraphState) (cfg : DiscoveryConfig) (aid : String) :
    List (List String × Nat × Rat × Rat) :=
  let scored := (discoverScored st cfg aid).mergeSort
    (fun a b => decide (b.2.2.2 ≤ a.2.2.2))
  let existing := getActivePatterns st aid
  let staticCount := (existing.filter (fun p => decide (p.patternType = "static"))).length
  let discoveredCount := (existing.filter (fun p => decide (p.patternType = "discovered"))).length
  scored.take (cfg.maxActivePatterns - staticCount - discoveredCount)

/-- `GraphStore.savePattern`: update (and re-activate) the row with the same
predicate sequence and agent if one exists, else insert a `discovered` row. -/
def savePattern (st : GraphState) (aid : String) (predicates : List String)
    (weight yieldScore overlap : Rat) : GraphState × Nat :=
  match st.patterns.find? (fun p => decide (p.predicates = predicates ∧ p.agentId = aid)) with
  | some existing =>
      ({ st with patterns := st.patterns.map (fun p =>
          if p.id = existing.id then
            { p with weight := weight, yieldScore := yieldScore, overlap := overlap,
                     active := true }
          else p) }, existing.id)
  | none =>
      ({ st with
          patterns := st.patterns ++ [{
            id := st.nextPatternId, predicates := predicates, patternType := "discovered",
            weight := weight, yieldScore := yieldScore, overlap := overlap,
            active := true, agentId := aid }]
          nextPatternId := st.nextPatternId + 1 }, st.nextPatternId)

/-- Stage 7 of `discover`: save the selected patterns (weight capped at 1.0). -/
def discover (st : GraphState) (cfg : DiscoveryConfig) (aid : String) :
    GraphState × Nat :=
  (discoverToSave st cfg aid).foldl (fun acc c =>
    ((savePattern acc.1 aid c.1 (min c.2.2.2 1) (c.2.1 : Rat) c.2.2.1).1, acc.2 + 1))
    (st, 0)

/-- `GraphStore.deactivatePattern`. -/
def deactivatePattern (st : GraphState) (pid : Nat) : GraphState :=
  { st with patterns := st.patterns.map (fun p =>
      if p.id = pid then { p with active := false } else p) }

/-- The loop body of `PatternDiscovery.validatePatterns`, threading the
(validated, retired) counters over the snapshot of active patterns. -/
def validateLoop (cfg : DiscoveryConfig) (aid : String) :
    GraphState → List MetaPattern → Nat → Nat → GraphState × Nat × Nat
  | st, [], v, r => (st, v, r)
  | st, p :: rest, v, r =>
      if p.patternType = "static" then validateLoop cfg aid st rest v r
      else
        match evalPattern st cfg aid p.predicates with
        | none => validateLoop cfg aid (deactivatePattern st p.id) rest v (r + 1)
        | some (y, ov, avg) =>
            if y < cfg.minYield ∨ ov > cfg.maxOverlap then
              validateLoop cfg aid (deactivatePattern st p.id) rest v (r + 1)
            else
              validateLoop cfg aid
                (savePattern st aid p.predicates (min ((y : Rat) * (1 - ov) * avg) 1) (y : Rat) ov).1
                rest (v + 1) r

/-- `PatternDiscovery.validatePatterns`. -/
def validatePatterns (st : GraphState) (cfg : DiscoveryConfig) (aid : String) :
    GraphState × Nat × Nat :=
  validateLoop cfg aid st (getActivePatterns st aid) 0 0

/-! ### Helper lemmas -/

theorem keyMatches_bump (n : Rat) (c : Option Rat) (i : Nat) (u : Triple)
    (s p o a : String) :
    keyMatches (bumpConfidence n c i u) s p o a ↔ keyMatches u s p o a := by
  unfold bumpConfidence
  split <;> simp [keyMatches]

theorem addTriple_eq_insert (st : GraphState) (s p o : String) (conf : Option Rat)
    (exId dt agentId : Option String) (pend : Bool)
    (h : st.triples.find? (fun t => decide (keyMatches t (normalizeEntityId s)
      p (normalizeEntityId o) (agentOrMain agentId))) = none) :
    addTriple st s p o conf exId dt agentId pend =
      ({ st with
          triples := st.triples ++ [newTripleOf st s p o conf exId dt agentId pend]
          nextTripleId := st.nextTripleId + 1 }, st.nextTripleId) := by
  unfold addTriple
  rw [h]

theorem addTriple_eq_update (st : GraphState) (s p o : String) (conf : Option Rat)
    (exId dt agentId : Option String) (pend : Bool) (t : Triple)
    (h : st.triples.find? (fun t => decide (keyMatches t (normalizeEntityId s)
      p (normalizeEntityId o) (agentOrMain agentId))) = some t) :
    addTriple st s p o conf exId dt agentId pend =
      ({ st with triples := st.triples.map (bumpConfidence st.now conf t.id) }, t.id) := by
  unfold addTriple
  rw [h]

theorem newTripleOf_key (st : GraphState) (s p o : String) (conf : Option Rat)
    (exId dt agentId : Option String) (pend : Bool) :
    keyMatches (newTripleOf st s p o conf exId dt agentId pend)
      (normalizeEntityId s) p (normalizeEntityId o) (agentOrMain agentId) := by
  simp [keyMatches, newTripleOf]

/-! ### Claim C2 -/

/-- Claim C2: triple deduplication with max-confidence.  Starting from a store
with no (s, p, o, agent) row, `addTriple` with confidence `c1` followed by
`addTriple` with confidence `c2` (both positive) returns the first row's id
from the second call, inserts no second row, leaves exactly one row for the
key, and that row's confidence is `max c1 c2`. -/
theorem addTriple_dedup_max (st : GraphState) (s p o aid : String) (c1 c2 : Rat)
    (h1 : 0 < c1) (h2 : 0 < c2)
    (hnone : ∀ t ∈ st.triples,
      ¬ keyMatches t (normalizeEntityId s) p (normalizeEntityId o) aid) :
    let r1 := addTriple st s p o (some c1) none none (some aid) false
    let r2 := addTriple r1.1 s p o (some c2) none none (some aid) false
    r2.2 = r1.2 ∧ r2.1.triples.length = r1.1.triples.length ∧
    (r2.1.triples.filter (fun t =>
        decide (keyMatches t (normalizeEntityId s) p (normalizeEntityId o) aid))).length = 1 ∧
    (∀ t ∈ r2.1.triples,
      keyMatches t (normalizeEntityId s) p (normalizeEntityId o) aid →
        t.confidence = max c1 c2) := by
  intro r1 r2
  have hagent : agentOrMain (some aid) = aid := rfl
  have hf1 : st.triples.find? (fun t => decide (keyMatches t (normalizeEntityId s)
      p (normalizeEntityId o) (agentOrMain (some aid)))) = none := by
    rw [List.find?_eq_none]
    intro x hx
    simpa [hagent] using hnone x hx
  have e1 : r1 = ({ st with
      triples := st.triples ++ [newTripleOf st s p o (some c1) none none (some aid) false]
      nextTripleId := st.nextTripleId + 1 }, st.nextTripleId) :=
    addTriple_eq_insert st s p o (some c1) none none (some aid) false hf1
  set T1 := newTripleOf st s p o (some c1) none none (some aid) false with hT1
  have hT1key : keyMatches T1 (normalizeEntityId s) p (normalizeEntityId o) aid := by
    simpa [hagent] using newTripleOf_key st s p o (some c1) none none (some aid) false
  have hf2 : r1.1.triples.find? (fun t => decide (keyMatches t (normalizeEntityId s)
      p (normalizeEntityId o) (agentOrMain (some aid)))) = some T1 := by
    rw [e1]
    simp only [List.find?_append, hf1, Option.none_or]
    simp [List.find?, hagent, hT1key]
  have e2 : r2 = ({ r1.1 with
      triples := r1.1.triples.map (bumpConfidence r1.1.now (some c2) T1.id) }, T1.id) :=
    addTriple_eq_update r1.1 s p o (some c2) none none (some aid) false T1 hf2
  have hnow : r1.1.now = st.now := by rw [e1]
  have htr : r1.1.triples = st.triples ++ [T1] := by rw [e1]
  have hTid : T1.id = st.nextTripleId := rfl
  have hr1id : r1.2 = st.nextTripleId := by rw [e1]
  have hc1 : T1.confidence = c1 := by
    simp [hT1, newTripleOf, confOrDefault, h1.ne']
  refine ⟨?_, ?_, ?_, ?_⟩
  · rw [e2, hr1id]
    exact hTid
  · rw [e2]
    simp
  · rw [e2, htr]
    rw [List.filter_map]
    have hpred : ∀ u : Triple,
        ((fun t => decide (keyMatches t (normalizeEntityId s) p (normalizeEntityId o) aid)) ∘
          (bumpConfidence r1.1.now (some c2) T1.id)) u =
        decide (keyMatches u (normalizeEntityId s) p (normalizeEntityId o) aid) := by
      intro u
      simp [Function.comp, keyMatches_bump]
    rw [List.filter_congr (fun u _ => hpred u)]
    rw [List.filter_append]
    have hl : st.triples.filter (fun t =>
        decide (keyMatches t (normalizeEntityId s) p (normalizeEntityId o) aid)) = [] := by
      rw [List.filter_eq_nil_iff]
      intro x hx
      simpa using hnone x hx
    rw [hl]
    simp [hT1key]
  · intro t ht hkey
    rw [e2, htr] at ht
    rw [List.map_append] at ht
    rcases List.mem_append.mp ht with hin | hin
    · rcases List.mem_map.mp hin with ⟨u, hu, rfl⟩
      exact absurd ((keyMatches_bump _ _ _ _ _ _ _ _).mp hkey) (hnone u hu)
    · rcases List.mem_map.mp hin with ⟨u, hu, rfl⟩
      have hu1 : u = T1 := by simpa using hu
      subst hu1
      simp [bumpConfidence, hc1, confOrDefault, h2.ne']

/-- The empty store (used by several witnesses). -/
def egEmpty : GraphState :=
  { triples := [], entities := [], coocs := [], patterns := [],
    nextTripleId := 1, nextPatternId := 1, now := 0, today := "" }

/-- Witness for C2 at the spec's own instance: confidence 0.6 then 0.9 on
(chris, knows, dan) for agent "main". -/
theorem addTriple_dedup_max_witness :
    (0 : Rat) < 6/10 ∧ (0 : Rat) < 9/10 ∧
    (let r1 := addTriple egEmpty "chris" "knows" "dan" (some (6/10)) none none (some "main") false
     let r2 := addTriple r1.1 "chris" "knows" "dan" (some (9/10)) none none (some "main") false
     r2.2 = r1.2 ∧ r2.1.triples.length = r1.1.triples.length ∧
     (r2.1.triples.filter (fun t =>
         decide (keyMatches t (normalizeEntityId "chris") "knows"
           (normalizeEntityId "dan") "main"))).length = 1 ∧
     (∀ t ∈ r2.1.triples,
       keyMatches t (normalizeEntityId "chris") "knows" (normalizeEntityId "dan") "main" →
         t.confidence = max (6/10) (9/10))) :=
  ⟨by norm_num, by norm_num,
    addTriple_dedup_max egEmpty "chris" "knows" "dan" "main" (6/10) (9/10)
      (by norm_num) (by norm_num) (by intro t ht; simp [egEmpty] at ht)⟩

/-! ### Claim C5 -/

/-- Claim C5: decay correctness and monotonicity.  `decayStaleTriples` deletes
no row and touches no entity; it returns the count of affected rows; and
row-by-row (`Forall₂` pairs each input row with its output row) it halves the
confidence of exactly the agent's rows with confidence above 0.1 whose
`updated_at` is more than `halfLifeDays` days old, leaves every other row
entirely unchanged, and never increases a confidence. -/
theorem decayStaleTriples_spec (st : GraphState) (agentId : Option String) (half : Rat) :
    let aid := agentOrMain agentId
    let r := decayStaleTriples st agentId half
    r.1.triples.length = st.triples.length ∧
    r.1.entities = st.entities ∧
    r.2 = (st.triples.filter (fun t => decide (t.agentId = aid ∧ t.confidence > 1/10 ∧
      st.now - t.updatedAt > half))).length ∧
    List.Forall₂ (fun t t' : Triple =>
      t'.id = t.id ∧ t'.subject = t.subject ∧ t'.predicate = t.predicate ∧
      t'.object = t.object ∧ t'.updatedAt = t.updatedAt ∧ t'.agentId = t.agentId ∧
      t'.confidence ≤ t.confidence ∧
      ((t.agentId = aid ∧ t.confidence > 1/10 ∧ st.now - t.updatedAt > half) →
        t'.confidence = t.confidence * (1/2)) ∧
      (¬(t.agentId = aid ∧ t.confidence > 1/10 ∧ st.now - t.updatedAt > half) →
        t' = t))
      st.triples r.1.triples := by
  intro aid r
  refine ⟨by simp [decayStaleTriples, r], rfl, rfl, ?_⟩
  show List.Forall₂ _ st.triples (st.triples.map _)
  rw [List.forall₂_map_right_iff]
  rw [List.forall₂_same]
  intro t _
  by_cases hc : t.agentId = aid ∧ t.confidence > 1/10 ∧ st.now - t.updatedAt > half
  · rw [if_pos hc]
    refine ⟨rfl, rfl, rfl, rfl, rfl, rfl, ?_, fun _ => rfl, fun h => absurd hc h⟩
    show t.confidence * (1/2) ≤ t.confidence
    have h110 : (1 : Rat)/10 < t.confidence := hc.2.1
    linarith
  · rw [if_neg hc]
    exact ⟨rfl, rfl, rfl, rfl, rfl, rfl, le_refl _, fun h => absurd h hc, fun _ => rfl⟩

/-- A tiny store with one stale and one fresh triple, for the C5 witness. -/
def egDecayState : GraphState :=
  { triples := [
      { id := 1, subject := "a", predicate := "knows", object := "b", confidence := 8/10,
        sourceExchangeId := none, sourceDate := "", createdAt := 0, updatedAt := 0,
        agentId := "main", pendingResolution := false },
      { id := 2, subject := "a", predicate := "uses", object := "c", confidence := 8/10,
        sourceExchangeId := none, sourceDate := "", createdAt := 100, updatedAt := 100,
        agentId := "main", pendingResolution := false }],
    entities := [], coocs := [], patterns := [],
    nextTripleId := 3, nextPatternId := 1, now := 100, today := "" }

/-- Witness for C5 at a concrete two-row store (one stale, one fresh) with a
90-day half-life. -/
theorem decayStaleTriples_spec_witness :
    (let aid := agentOrMain (some "main")
     let r := decayStaleTriples egDecayState (some "main") 90
     r.1.triples.length = egDecayState.triples.length ∧
     r.1.entities = egDecayState.entities ∧
     r.2 = (egDecayState.triples.filter (fun t => decide (t.agentId = aid ∧
       t.confidence > 1/10 ∧ egDecayState.now - t.updatedAt > 90))).length ∧
     List.Forall₂ (fun t t' : Triple =>
       t'.id = t.id ∧ t'.subject = t.subject ∧ t'.predicate = t.predicate ∧
       t'.object = t.object ∧ t'.updatedAt = t.updatedAt ∧ t'.agentId = t.agentId ∧
       t'.confidence ≤ t.confidence ∧
       ((t.agentId = aid ∧ t.confidence > 1/10 ∧ egDecayState.now - t.updatedAt > 90) →
         t'.confidence = t.confidence * (1/2)) ∧
       (¬(t.agentId = aid ∧ t.confidence > 1/10 ∧ egDecayState.now - t.updatedAt > 90) →
         t' = t))
       egDecayState.triples r.1.triples) ∧
    (decayStaleTriples egDecayState (some "main") 90).2 = 1 :=
  ⟨decayStaleTriples_spec egDecayState (some "main") 90, by with_unfolding_all decide⟩

/-! ### Claim C6 -/

theorem runEntities_none_eq (aid : String) (es : List ExchangeEntity) :
    ∀ st : GraphState, runEntities aid st es none = some (applyEntities aid st es, none) := by
  induction es with
  | nil => intro st; rfl
  | cons e es ih => intro st; simp [runEntities, tick, applyEntities, ih]

theorem runTriples_none_eq (aid : String) (exId : Option String) (date : String)
    (ts : List ExchangeTriple) :
    ∀ st : GraphState, runTriples aid exId date st ts none =
      some ((applyTriples aid exId date st ts).1, (applyTriples aid exId date st ts).2, none) := by
  induction ts with
  | nil => intro st; rfl
  | cons t ts ih => intro st; simp [runTriples, tick, applyTriples, ih]

theorem runCoocs_none_eq (cs : List (String × String)) :
    ∀ st : GraphState, runCoocs st cs none = some (applyCoocs st cs, none) := by
  induction cs with
  | nil => intro st; rfl
  | cons c cs ih =>
      intro st
      rcases c with ⟨a, b⟩
      simp [runCoocs, tick, applyCoocs, ih]

theorem runEntities_ok (aid : String) (es : List ExchangeEntity) :
    ∀ (st st' : GraphState) (b b' : Option Nat),
      runEntities aid st es b = some (st', b') → st' = applyEntities aid st es := by
  induction es with
  | nil =>
      intro st st' b b' h
      simp [runEntities] at h
      simp [applyEntities, h.1.symm]
  | cons e es ih =>
      intro st st' b b' h
      rcases b with _ | n
      · simp [runEntities, tick] at h
        exact (ih _ _ _ _ h).trans rfl
      · rcases n with _ | n
        · simp [runEntities, tick] at h
        · simp [runEntities, tick] at h
          exact (ih _ _ _ _ h).trans rfl

theorem runTriples_ok (aid : String) (exId : Option String) (date : String)
    (ts : List ExchangeTriple) :
    ∀ (st st' : GraphState) (ids : List Nat) (b b' : Option Nat),
      runTriples aid exId date st ts b = some (st', ids, b') →
        st' = (applyTriples aid exId date st ts).1 ∧ ids = (applyTriples aid exId date st ts).2 := by
  induction ts with
  | nil =>
      intro st st' ids b b' h
      simp [runTriples] at h
      exact ⟨h.1.symm, by simp [applyTriples, h.2.1.symm]⟩
  | cons t ts ih =>
      intro st st' ids b b' h
      rcases b with _ | n
      · simp only [runTriples, tick] at h
        cases hrun : runTriples aid exId date
            (addTriple st t.subject t.predicate t.object t.confidence exId
              (some date) (some aid) false).1 ts none with
        | none => rw [hrun] at h; exact absurd h (by simp)
        | some v =>
            rcases v with ⟨st'', ids', b''⟩
            rw [hrun] at h
            simp only [Option.some.injEq, Prod.mk.injEq] at h
            rcases h with ⟨hst, hids, _⟩
            rcases ih _ _ _ _ _ hrun with ⟨h1, h2⟩
            constructor
            · rw [← hst, h1]; rfl
            · rw [← hids, h2]; rfl
      · rcases n with _ | n
        · simp [runTriples, tick] at h
        · simp only [runTriples, tick] at h
          cases hrun : runTriples aid exId date
              (addTriple st t.subject t.predicate t.object t.confidence exId
                (some date) (some aid) false).1 ts (some n) with
          | none => rw [hrun] at h; exact absurd h (by simp)
          | some v =>
              rcases v with ⟨st'', ids', b''⟩
              rw [hrun] at h
              simp only [Option.some.injEq, Prod.mk.injEq] at h
              rcases h with ⟨hst, hids, _⟩
              rcases ih _ _ _ _ _ hrun with ⟨h1, h2⟩
              constructor
              · rw [← hst, h1]; rfl
              · rw [← hids, h2]; rfl

theorem runCoocs_ok (cs : List (String × String)) :
    ∀ (st st' : GraphState) (b b' : Option Nat),
      runCoocs st cs b = some (st', b') → st' = applyCoocs st cs := by
  induction cs with
  | nil =>
      intro st st' b b' h
      simp [runCoocs] at h
      simp [applyCoocs, h.1.symm]
  | cons c cs ih =>
      intro st st' b b' h
      rcases c with ⟨a, bb⟩
      rcases b with _ | n
      · simp [runCoocs, tick] at h
        exact (ih _ _ _ _ h).trans rfl
      · rcases n with _ | n
        · simp [runCoocs, tick] at h
        · simp [runCoocs, tick] at h
          exact (ih _ _ _ _ h).trans rfl

/-- Claim C6: `writeExchange` is atomic.  For every storage-fault oracle, the
call either commits the complete batch — its post-state and returned triple ids
equal the fault-free batch `writeExchangeApply` — or raises and leaves the
store exactly as it was; and with no fault the call always succeeds with the
complete batch applied. -/
theorem writeExchange_atomic (st : GraphState) (es : List ExchangeEntity)
    (ts : List ExchangeTriple) (cs : List (String × String))
    (agentId exId dt : Option String) (budget : Option Nat) :
    let r := writeExchange st es ts cs agentId exId dt budget
    let pureBatch := writeExchangeApply st es ts cs agentId exId dt
    (∀ ids, r.2 = Except.ok ids → r.1 = pureBatch.1 ∧ ids = pureBatch.2) ∧
    (∀ e, r.2 = Except.error e → r.1 = st) ∧
    writeExchange st es ts cs agentId exId dt none = (pureBatch.1, Except.ok pureBatch.2) := by
  intro r pureBatch
  have hsplit : ∀ (P : GraphState × Except Unit (List Nat) → Prop),
      (∀ st1 b1 st2 ids b2 st3 b3,
        runEntities (agentOrMain agentId) st es budget = some (st1, b1) →
        runTriples (agentOrMain agentId) exId (dt.getD st.today) st1 ts b1 = some (st2, ids, b2) →
        runCoocs st2 cs b2 = some (st3, b3) → P (st3, Except.ok ids)) →
      (P (st, Except.error ())) → P r := by
    intro P hok herr
    show P (writeExchange st es ts cs agentId exId dt budget)
    unfold writeExchange
    cases h1 : runEntities (agentOrMain agentId) st es budget with
    | none => exact herr
    | some v1 =>
        rcases v1 with ⟨st1, b1⟩
        dsimp only
        cases h2 : runTriples (agentOrMain agentId) exId (dt.getD st.today) st1 ts b1 with
        | none => exact herr
        | some v2 =>
            rcases v2 with ⟨st2, ids, b2⟩
            dsimp only
            cases h3 : runCoocs st2 cs b2 with
            | none => exact herr
            | some v3 =>
                rcases v3 with ⟨st3, b3⟩
                dsimp only
                exact hok st1 b1 st2 ids b2 st3 b3 h1 h2 h3
  refine ⟨?_, ?_, ?_⟩
  · intro ids hok
    revert hok
    refine hsplit (fun x => x.2 = Except.ok ids → x.1 = pureBatch.1 ∧ ids = pureBatch.2)
      ?_ (by intro h; exact absurd h (by simp))
    intro st1 b1 st2 ids2 b2 st3 b3 h1 h2 h3 hok2
    have hids2 : ids2 = ids := by simpa using hok2
    subst hids2
    have e1 := runEntities_ok (agentOrMain agentId) es st st1 budget b1 h1
    have e2 := runTriples_ok (agentOrMain agentId) exId (dt.getD st.today) ts st1 st2 ids2 b1 b2 h2
    have e3 := runCoocs_ok cs st2 st3 b2 b3 h3
    subst e1
    constructor
    · show st3 = pureBatch.1
      rw [e3, e2.1]
      rfl
    · show ids2 = pureBatch.2
      rw [e2.2]
      rfl
  · intro e herr
    revert herr
    refine hsplit (fun x => x.2 = Except.error e → x.1 = st) ?_ (by intro _; rfl)
    intro st1 b1 st2 ids2 b2 st3 b3 h1 h2 h3 habs
    exact absurd habs (by simp)
  · show writeExchange st es ts cs agentId exId dt none = (pureBatch.1, Except.ok pureBatch.2)
    unfold writeExchange
    rw [runEntities_none_eq (agentOrMain agentId) es st]
    dsimp only
    rw [runTriples_none_eq (agentOrMain agentId) exId (dt.getD st.today) ts
      (applyEntities (agentOrMain agentId) st es)]
    dsimp only
    rw [runCoocs_none_eq cs
      (applyTriples (agentOrMain agentId) exId (dt.getD st.today)
        (applyEntities (agentOrMain agentId) st es) ts).1]
    rfl

/-- Witness for C6: a one-entity, one-triple, one-co-occurrence batch against
the empty store, with a fault injected at the second primitive write (the store
is unchanged and the error surfaces) and with no fault (the whole batch lands). -/
theorem writeExchange_atomic_witness :
    ((writeExchange egEmpty [{ name := "Chris", type := some "PERSON" }]
        [{ subject := "Chris", predicate := "knows", object := "Dan", confidence := some (9/10) }]
        [("Chris", "Dan")] (some "main") (some "ex1") (some "d") (some 1)).1 = egEmpty) ∧
    (writeExchange egEmpty [{ name := "Chris", type := some "PERSON" }]
        [{ subject := "Chris", predicate := "knows", object := "Dan", confidence := some (9/10) }]
        [("Chris", "Dan")] (some "main") (some "ex1") (some "d") none =
      ((writeExchangeApply egEmpty [{ name := "Chris", type := some "PERSON" }]
        [{ subject := "Chris", predicate := "knows", object := "Dan", confidence := some (9/10) }]
        [("Chris", "Dan")] (some "main") (some "ex1") (some "d")).1,
       Except.ok (writeExchangeApply egEmpty [{ name := "Chris", type := some "PERSON" }]
        [{ subject := "Chris", predicate := "knows", object := "Dan", confidence := some (9/10) }]
        [("Chris", "Dan")] (some "main") (some "ex1") (some "d")).2)) :=
  ⟨(writeExchange_atomic egEmpty [{ name := "Chris", type := some "PERSON" }]
      [{ subject := "Chris", predicate := "knows", object := "Dan", confidence := some (9/10) }]
      [("Chris", "Dan")] (some "main") (some "ex1") (some "d") (some 1)).2.1 ()
      (by with_unfolding_all rfl),
   (writeExchange_atomic egEmpty [{ name := "Chris", type := some "PERSON" }]
      [{ subject := "Chris", predicate := "knows", object := "Dan", confidence := some (9/10) }]
      [("Chris", "Dan")] (some "main") (some "ex1") (some "d") none).2.2⟩

/-! ### Claim C3 -/

/-- The spec's triple-uniqueness invariant: at most one `triples` row per
(subject, predicate, object, agent) key. -/
def TripleKeyUnique (st : GraphState) : Prop :=
  List.Pairwise (fun a b => tripleKey a ≠ tripleKey b) st.triples

instance (st : GraphState) : Decidable (TripleKeyUnique st) := by
  unfold TripleKeyUnique; infer_instance

theorem keyMatches_iff (t : Triple) (s p o a : String) :
    keyMatches t s p o a ↔ tripleKey t = (s, p, o, a) := by
  simp [keyMatches, tripleKey]

theorem tripleKey_bump (n : Rat) (c : Option Rat) (i : Nat) (u : Triple) :
    tripleKey (bumpConfidence n c i u) = tripleKey u := by
  unfold bumpConfidence
  split <;> simp [tripleKey]

theorem pairwise_key_map (l : List Triple) (f : Triple → Triple)
    (hf : ∀ t, tripleKey (f t) = tripleKey t)
    (h : List.Pairwise (fun a b => tripleKey a ≠ tripleKey b) l) :
    List.Pairwise (fun a b => tripleKey a ≠ tripleKey b) (l.map f) := by
  rw [List.pairwise_map]
  refine h.imp ?_
  intro a b hab
  rw [hf a, hf b]
  exact hab

theorem addTriple_preserves_unique (st : GraphState) (h : TripleKeyUnique st)
    (s p o : String) (conf : Option Rat) (exId dt agentId : Option String) (pend : Bool) :
    TripleKeyUnique (addTriple st s p o conf exId dt agentId pend).1 := by
  unfold TripleKeyUnique addTriple
  cases hf : st.triples.find? (fun t => decide (keyMatches t (normalizeEntityId s) p
      (normalizeEntityId o) (agentOrMain agentId))) with
  | some t =>
      dsimp only
      exact pairwise_key_map _ _ (tripleKey_bump st.now conf t.id) h
  | none =>
      dsimp only
      rw [List.pairwise_append]
      refine ⟨h, List.pairwise_singleton _ _, ?_⟩
      intro a ha b hb he
      have hb1 : b = newTripleOf st s p o conf exId dt agentId pend := by simpa using hb
      subst hb1
      have hnm := List.find?_eq_none.mp hf a ha
      apply hnm
      rw [decide_eq_true_iff, keyMatches_iff]
      rw [he]
      rfl

theorem upsertEntity_triples (st : GraphState) (n : String) (ty a : Option String) :
    (upsertEntity st n ty a).1.triples = st.triples := by
  unfold upsertEntity
  dsimp only
  split <;> rfl

theorem upsertCooccurrence_triples (st : GraphState) (a b : String) :
    (upsertCooccurrence st a b).triples = st.triples := by
  unfold upsertCooccurrence
  split <;> rfl

theorem applyEntities_triples (aid : String) (es : List ExchangeEntity) :
    ∀ st : GraphState, (applyEntities aid st es).triples = st.triples := by
  induction es with
  | nil => intro st; rfl
  | cons e es ih =>
      intro st
      show (applyEntities aid (upsertEntity st e.name e.type (some aid)).1 es).triples = _
      rw [ih, upsertEntity_triples]

theorem applyCoocs_triples (cs : List (String × String)) :
    ∀ st : GraphState, (applyCoocs st cs).triples = st.triples := by
  induction cs with
  | nil => intro st; rfl
  | cons c cs ih =>
      intro st
      rcases c with ⟨a, b⟩
      show (applyCoocs (upsertCooccurrence st _ _) cs).triples = _
      rw [ih, upsertCooccurrence_triples]

theorem applyTriples_preserves_unique (aid : String) (exId : Option String) (date : String)
    (ts : List ExchangeTriple) :
    ∀ st : GraphState, TripleKeyUnique st →
      TripleKeyUnique (applyTriples aid exId date st ts).1 := by
  induction ts with
  | nil => intro st h; exact h
  | cons t ts ih =>
      intro st h
      show TripleKeyUnique (applyTriples aid exId date
        (addTriple st t.subject t.predicate t.object t.confidence exId (some date) (some aid) false).1 ts).1
      exact ih _ (addTriple_preserves_unique st h _ _ _ _ _ _ _ _)

theorem writeExchange_state_cases (st : GraphState) (es : List ExchangeEntity)
    (ts : List ExchangeTriple) (cs : List (String × String))
    (agentId exId dt : Option String) (budget : Option Nat) :
    (writeExchange st es ts cs agentId exId dt budget).1 = st ∨
    (writeExchange st es ts cs agentId exId dt budget).1 =
      (writeExchangeApply st es ts cs agentId exId dt).1 := by
  unfold writeExchange
  cases h1 : runEntities (agentOrMain agentId) st es budget with
  | none => left; rfl
  | some v1 =>
      rcases v1 with ⟨st1, b1⟩
      dsimp only
      cases h2 : runTriples (agentOrMain agentId) exId (dt.getD st.today) st1 ts b1 with
      | none => left; rfl
      | some v2 =>
          rcases v2 with ⟨st2, ids, b2⟩
          dsimp only
          cases h3 : runCoocs st2 cs b2 with
          | none => left; rfl
          | some v3 =>
              rcases v3 with ⟨st3, b3⟩
              dsimp only
              right
              have e1 := runEntities_ok (agentOrMain agentId) es st st1 budget b1 h1
              have e2 := runTriples_ok (agentOrMain agentId) exId (dt.getD st.today) ts st1 st2 ids b1 b2 h2
              have e3 := runCoocs_ok cs st2 st3 b2 b3 h3
              show st3 = (writeExchangeApply st es ts cs agentId exId dt).1
              rw [e3, e2.1, e1]
              rfl

theorem clearPendingFor_key_unique (st : GraphState) (eid aid : String)
    (h : TripleKeyUnique st) : TripleKeyUnique (clearPendingFor st eid aid) := by
  unfold TripleKeyUnique clearPendingFor
  refine pairwise_key_map _ _ ?_ h
  intro t
  split <;> simp [tripleKey]

theorem processPendingLoop_preserves (cfg : ResolverConfig) (aid : String) :
    ∀ (l : List String) (st : GraphState) (r x : Nat), TripleKeyUnique st →
      TripleKeyUnique (processPendingLoop cfg aid st l r x).1 := by
  intro l
  induction l with
  | nil => intro st r x h; exact h
  | cons eid rest ih =>
      intro st r x h
      show TripleKeyUnique (processPendingLoop cfg aid st (eid :: rest) r x).1
      unfold processPendingLoop
      cases getEntity st eid with
      | none => exact ih st r x h
      | some e =>
          dsimp only
          split
          · exact ih _ _ _ (clearPendingFor_key_unique st eid aid h)
          · split
            · exact ih _ _ _ (clearPendingFor_key_unique st eid aid h)
            · exact ih st r x h

/-- Two entities that both relate to a common third entity; merging them makes
the rewritten rows collide on the (subject, predicate, object, agent) key. -/
def egMergeState : GraphState :=
  { triples := [
      { id := 1, subject := "a", predicate := "knows", object := "x", confidence := 1,
        sourceExchangeId := none, sourceDate := "", createdAt := 0, updatedAt := 0,
        agentId := "main", pendingResolution := false },
      { id := 2, subject := "b", predicate := "knows", object := "x", confidence := 1,
        sourceExchangeId := none, sourceDate := "", createdAt := 0, updatedAt := 0,
        agentId := "main", pendingResolution := false }],
    entities := [
      { id := "a", canonicalName := "a", entityType := "CONCEPT", firstSeen := 0,
        lastSeen := 0, mentionCount := 1, aliases := [], agentId := "main" },
      { id := "b", canonicalName := "b", entityType := "CONCEPT", firstSeen := 0,
        lastSeen := 0, mentionCount := 1, aliases := [], agentId := "main" },
      { id := "x", canonicalName := "x", entityType := "CONCEPT", firstSeen := 0,
        lastSeen := 0, mentionCount := 1, aliases := [], agentId := "main" }],
    coocs := [], patterns := [], nextTripleId := 3, nextPatternId := 1, now := 0, today := "" }

/-- Counterexample to C3 as stated: `mergeEntities` does not preserve the
triple-uniqueness invariant.  Merging entity `b` into `a` when both stores a
`knows`-edge to `x` rewrites row 2 to (a, knows, x, main), leaving two rows
with the identical key. -/
theorem mergeEntities_creates_duplicate_keys :
    TripleKeyUnique egMergeState ∧
    ¬ TripleKeyUnique (mergeEntities egMergeState "a" "b" "main").1 ∧
    ((mergeEntities egMergeState "a" "b" "main").1.triples.map tripleKey) =
      [("a", "knows", "x", "main"), ("a", "knows", "x", "main")] := by
  refine ⟨?_, ?_, ?_⟩ <;> with_unfolding_all decide

/-- Claim C3 (amended): the triple-uniqueness invariant is preserved by
`addTriple`, `writeExchange` (under any fault oracle), `decayStaleTriples` and
`processPending`; `mergeEntities` is excluded, since rewriting the merged id
can make two previously distinct rows collide on the key (see the
counterexample). -/
theorem key_uniqueness_preserved (st : GraphState) (h : TripleKeyUnique st) :
    (∀ s p o conf exId dt agentId pend,
      TripleKeyUnique (addTriple st s p o conf exId dt agentId pend).1) ∧
    (∀ es ts cs agentId exId dt budget,
      TripleKeyUnique (writeExchange st es ts cs agentId exId dt budget).1) ∧
    (∀ agentId half, TripleKeyUnique (decayStaleTriples st agentId half).1) ∧
    (∀ cfg agentId, TripleKeyUnique (processPending st cfg agentId).1) := by
  refine ⟨?_, ?_, ?_, ?_⟩
  · intro s p o conf exId dt agentId pend
    exact addTriple_preserves_unique st h s p o conf exId dt agentId pend
  · intro es ts cs agentId exId dt budget
    rcases writeExchange_state_cases st es ts cs agentId exId dt budget with hc | hc
    · rw [hc]; exact h
    · rw [hc]
      show TripleKeyUnique (writeExchangeApply st es ts cs agentId exId dt).1
      unfold TripleKeyUnique
      unfold writeExchangeApply
      dsimp only
      rw [applyCoocs_triples]
      have happ : TripleKeyUnique (applyTriples (agentOrMain agentId) exId (dt.getD st.today)
          (applyEntities (agentOrMain agentId) st es) ts).1 := by
        apply applyTriples_preserves_unique
        unfold TripleKeyUnique
        rw [applyEntities_triples]
        exact h
      exact happ
  · intro agentId half
    unfold TripleKeyUnique decayStaleTriples
    dsimp only
    refine pairwise_key_map _ _ ?_ h
    intro t
    split <;> simp [tripleKey]
  · intro cfg agentId
    exact processPendingLoop_preserves cfg agentId _ st 0 0 h

/-- Witness for C3 (amended) at a concrete store satisfying the invariant. -/
theorem key_uniqueness_preserved_witness :
    TripleKeyUnique egMergeState ∧
    TripleKeyUnique (addTriple egMergeState "a" "knows" "x" (some (1/2)) none none
      (some "main") false).1 :=
  ⟨by with_unfolding_all decide,
   (key_uniqueness_preserved egMergeState (by with_unfolding_all decide)).1
     "a" "knows" "x" (some (1/2)) none none (some "main") false⟩

/-! ### Claim C4 -/

theorem segAt_of_leading : ∀ {n h : List Char}, n <+: h → segAt n h = true := by
  intro n
  induction n with
  | nil => intro h _; rfl
  | cons a as ih =>
      intro h hp
      rcases hp with ⟨v, hv⟩
      subst hv
      show segAt (a :: as) (a :: (as ++ v)) = true
      simp only [segAt, beq_self_eq_true, Bool.true_and]
      exact ih ⟨v, rfl⟩

theorem hasSeg_of_leading {n h : List Char} (hp : n <+: h) : hasSeg n h = true := by
  cases h with
  | nil =>
      have hn : n = [] := List.prefix_nil.mp hp
      subst hn
      rfl
  | cons c cs =>
      show (segAt n (c :: cs) || hasSeg n cs) = true
      rw [segAt_of_leading hp]
      rfl

theorem hasSeg_of_segment {n h : List Char} (hi : n <:+: h) : hasSeg n h = true := by
  rcases hi with ⟨s, t, rfl⟩
  induction s with
  | nil => exact hasSeg_of_leading ⟨t, by simp⟩
  | cons c s ih =>
      show (segAt n (c :: (s ++ n ++ t)) || hasSeg n (s ++ n ++ t)) = true
      rw [ih]
      simp

/-- Out-of-band invariant for CTE rows: the visit sequence has no duplicates
and every visited entity occurs slash-delimited in the path accumulator. -/
def RowOk (r : HopRow) : Prop :=
  r.seq.Nodup ∧ ∀ e ∈ r.seq, slashWrap e <:+: r.path

theorem seedRows_ok (st : GraphState) (seeds : List String) (aid : String) (d minConf : Rat)
    (hsl : ∀ t ∈ st.triples, t.agentId = aid → t.subject ≠ t.object) :
    ∀ r ∈ seedRows st seeds aid d minConf, RowOk r := by
  intro r hr
  unfold seedRows at hr
  rcases List.mem_map.mp hr with ⟨t, ht, rfl⟩
  have htf := List.mem_filter.mp ht
  have hprops := of_decide_eq_true htf.2
  have hne : t.subject ≠ t.object := hsl t htf.1 hprops.2.1
  have hinS : slashWrap t.subject <:+: seedPath t.subject t.predicate t.object :=
    ⟨[], t.predicate.toList ++ ('/' :: t.object.toList) ++ ['/'],
      by simp [slashWrap, seedPath]⟩
  have hinO : slashWrap t.object <:+: seedPath t.subject t.predicate t.object :=
    ⟨('/' :: t.subject.toList) ++ ('/' :: t.predicate.toList), [],
      by simp [slashWrap, seedPath]⟩
  by_cases hs : t.subject ∈ seeds
  · rw [if_pos hs]
    refine ⟨by simp [hne], ?_⟩
    intro e he
    rcases List.mem_cons.mp he with rfl | he2
    · exact hinS
    · have he3 : e = t.object := by simpa using he2
      exact he3 ▸ hinO
  · rw [if_neg hs]
    refine ⟨by simp [Ne.symm hne], ?_⟩
    intro e he
    rcases List.mem_cons.mp he with rfl | he2
    · exact hinO
    · have he3 : e = t.subject := by simpa using he2
      exact he3 ▸ hinS

theorem expandRow_ok (st : GraphState) (aid : String) (d minConf : Rat) (maxHops : Nat)
    (h : HopRow) (hok : RowOk h) :
    ∀ r ∈ expandRow st aid d minConf maxHops h, RowOk r := by
  intro r hr
  unfold expandRow at hr
  split at hr
  case isFalse => simp at hr
  case isTrue hcond =>
    rcases List.mem_map.mp hr with ⟨t, ht, rfl⟩
    have htf := List.mem_filter.mp ht
    have hsplit := htf.2
    simp only [Bool.and_eq_true, Bool.not_eq_true'] at hsplit
    have hcheck : hasSeg (slashWrap (if t.subject = h.entity then t.object else t.subject))
        h.path = false := hsplit.2
    have hnot : (if t.subject = h.entity then t.object else t.subject) ∉ h.seq := by
      intro hmem
      have hinf := hok.2 _ hmem
      rw [hasSeg_of_segment hinf] at hcheck
      exact Bool.true_eq_false.mp hcheck
    constructor
    · show (h.seq ++ [if t.subject = h.entity then t.object else t.subject]).Nodup
      rw [List.nodup_append]
      refine ⟨hok.1, List.nodup_singleton _, ?_⟩
      intro a ha hb
      have : a = (if t.subject = h.entity then t.object else t.subject) := by simpa using hb
      subst this
      exact hnot ha
    · intro e he
      rcases List.mem_append.mp he with he | he
      · rcases hok.2 e he with ⟨u, v, huv⟩
        exact ⟨u, v ++ (t.predicate.toList ++
          ('/' :: (if t.subject = h.entity then t.object else t.subject).toList) ++ ['/']),
          by rw [← huv]; simp⟩
      · have : e = (if t.subject = h.entity then t.object else t.subject) := by simpa using he
        subst this
        exact ⟨h.path ++ t.predicate.toList, [], by simp [slashWrap]⟩

theorem hopFrontiers_ok (st : GraphState) (aid : String) (d minConf : Rat) (maxHops : Nat) :
    ∀ (fuel : Nat) (frontier : List HopRow), (∀ r ∈ frontier, RowOk r) →
      ∀ r ∈ hopFrontiers st aid d minConf maxHops fuel frontier, RowOk r := by
  intro fuel
  induction fuel with
  | zero => intro frontier h r hr; exact h r hr
  | succ n ih =>
      intro frontier h r hr
      have hr2 : r ∈ frontier ++ hopFrontiers st aid d minConf maxHops n
          (frontier.flatMap (expandRow st aid d minConf maxHops)) := hr
      rcases List.mem_append.mp hr2 with hm | hm
      · exact h r hm
      · refine ih _ ?_ r hm
        intro r' hr'
        rcases List.mem_flatMap.mp hr' with ⟨hrow, hmem, hin⟩
        exact expandRow_ok st aid d minConf maxHops hrow (h hrow hmem) r' hin

/-- Claim C4 (amended): cycle-free multi-hop traversal.  Provided no stored
triple of the agent is a self-loop (subject = object), no row generated by the
recursive CTE of `searchMultiHop` has a visit sequence containing the same
entity twice: the path-membership check rejects every already-visited entity.
(A self-loop seed triple is the one exception — see the counterexample.) -/
theorem hopRows_no_revisit (st : GraphState) (seeds : List String) (aid : String)
    (maxHops : Nat) (d minConf : Rat)
    (hsl : ∀ t ∈ st.triples, t.agentId = aid → t.subject ≠ t.object) :
    ∀ r ∈ hopRows st seeds aid maxHops d minConf, r.seq.Nodup := by
  intro r hr
  exact (hopFrontiers_ok st aid d minConf maxHops maxHops _
    (seedRows_ok st seeds aid d minConf hsl) r hr).1

/-- A store holding the single self-loop triple a→knows→a. -/
def egLoopState : GraphState :=
  { triples := [
      { id := 1, subject := "a", predicate := "knows", object := "a", confidence := 1,
        sourceExchangeId := some "ex1", sourceDate := "", createdAt := 0, updatedAt := 0,
        agentId := "main", pendingResolution := false }],
    entities := [
      { id := "a", canonicalName := "a", entityType := "CONCEPT", firstSeen := 0,
        lastSeen := 0, mentionCount := 1, aliases := [], agentId := "main" }],
    coocs := [], patterns := [], nextTripleId := 2, nextPatternId := 1, now := 0, today := "" }

/-- Counterexample to C4 as stated: a self-loop triple a→knows→a seeds a hop
row whose entity sequence visits `a` twice — the seed branch of the CTE applies
no cycle check, so not every generated path is revisit-free. -/
theorem selfLoop_path_revisits :
    ((hopRows egLoopState ["a"] "main" 3 (7/10) (3/5)).map (fun r => r.seq)) = [["a", "a"]] ∧
    ¬ (["a", "a"] : List String).Nodup := by
  exact ⟨by with_unfolding_all decide, by decide⟩

/-- The spec's 4-entity cycle A→B→C→D→A with all edge confidences 1.0. -/
def egCycleState : GraphState :=
  { triples := [
      { id := 1, subject := "a", predicate := "knows", object := "b", confidence := 1,
        sourceExchangeId := some "e1", sourceDate := "", createdAt := 0, updatedAt := 0,
        agentId := "main", pendingResolution := false },
      { id := 2, subject := "b", predicate := "knows", object := "c", confidence := 1,
        sourceExchangeId := some "e2", sourceDate := "", createdAt := 0, updatedAt := 0,
        agentId := "main", pendingResolution := false },
      { id := 3, subject := "c", predicate := "knows", object := "d", confidence := 1,
        sourceExchangeId := some "e3", sourceDate := "", createdAt := 0, updatedAt := 0,
        agentId := "main", pendingResolution := false },
      { id := 4, subject := "d", predicate := "knows", object := "a", confidence := 1,
        sourceExchangeId := some "e4", sourceDate := "", createdAt := 0, updatedAt := 0,
        agentId := "main", pendingResolution := false }],
    entities := [
      { id := "a", canonicalName := "a", entityType := "CONCEPT", firstSeen := 0,
        lastSeen := 0, mentionCount := 1, aliases := [], agentId := "main" },
      { id := "b", canonicalName := "b", entityType := "CONCEPT", firstSeen := 0,
        lastSeen := 0, mentionCount := 1, aliases := [], agentId := "main" },
      { id := "c", canonicalName := "c", entityType := "CONCEPT", firstSeen := 0,
        lastSeen := 0, mentionCount := 1, aliases := [], agentId := "main" },
      { id := "d", canonicalName := "d", entityType := "CONCEPT", firstSeen := 0,
        lastSeen := 0, mentionCount := 1, aliases := [], agentId := "main" }],
    coocs := [], patterns := [], nextTripleId := 5, nextPatternId := 1, now := 0, today := "" }

/-- Witness for C4 (amended) at the spec's 4-cycle with maxHops = 3: the store
has no self-loop and every generated traversal row is revisit-free. -/
theorem hopRows_no_revisit_witness :
    (∀ t ∈ egCycleState.triples, t.agentId = "main" → t.subject ≠ t.object) ∧
    (∀ r ∈ hopRows egCycleState ["a"] "main" 3 (7/10) (3/5), r.seq.Nodup) :=
  ⟨by with_unfolding_all decide,
   hopRows_no_revisit egCycleState ["a"] "main" 3 (7/10) (3/5)
     (by with_unfolding_all decide)⟩

/-! ### Claim C1 -/

/-- The spec's end-to-end scenario: chris→created→dashboard (0.9, ex1),
chris→knows→dan (0.9, ex2), dan→works_on→dashboard (0.8, ex3), all entities
registered for agent "main". -/
def egScenarioState : GraphState :=
  { triples := [
      { id := 1, subject := "chris", predicate := "created", object := "dashboard",
        confidence := 9/10, sourceExchangeId := some "ex1", sourceDate := "",
        createdAt := 0, updatedAt := 0, agentId := "main", pendingResolution := false },
      { id := 2, subject := "chris", predicate := "knows", object := "dan",
        confidence := 9/10, sourceExchangeId := some "ex2", sourceDate := "",
        createdAt := 0, updatedAt := 0, agentId := "main", pendingResolution := false },
      { id := 3, subject := "dan", predicate := "works_on", object := "dashboard",
        confidence := 8/10, sourceExchangeId := some "ex3", sourceDate := "",
        createdAt := 0, updatedAt := 0, agentId := "main", pendingResolution := false }],
    entities := [
      { id := "chris", canonicalName := "chris", entityType := "PERSON", firstSeen := 0,
        lastSeen := 0, mentionCount := 1, aliases := [], agentId := "main" },
      { id := "dan", canonicalName := "dan", entityType := "PERSON", firstSeen := 0,
        lastSeen := 0, mentionCount := 1, aliases := [], agentId := "main" },
      { id := "dashboard", canonicalName := "dashboard", entityType := "THING",
        firstSeen := 0, lastSeen := 0, mentionCount := 1, aliases := [], agentId := "main" }],
    coocs := [], patterns := [], nextTripleId := 4, nextPatternId := 1, now := 0, today := "" }

/-- The claim's retrieval configuration: maxHops = 2, hopDecay = 0.7,
minTraversalConfidence = 0.6. -/
def egScenarioConfig : SearchConfig :=
  { maxResults := 20, maxHops := 2, hopDecay := 7/10, minTraversalConfidence := 3/5 }

/-- Counterexample to C1 as stated: its closing clause claims no direct triple
connects chris and dashboard, yet the scenario's own store contains the direct
edge chris→created→dashboard for agent "main". -/
theorem scenario_has_direct_edge :
    (egScenarioState.triples.map (fun t => (t.subject, t.predicate, t.object))).contains
      ("chris", "created", "dashboard") = true ∧
    egScenarioState.triples.any (fun t =>
      decide (t.subject = "chris" ∧ t.object = "dashboard" ∧ t.agentId = "main")) = true :=
  ⟨by with_unfolding_all decide, by with_unfolding_all decide⟩

set_option maxRecDepth 20000 in
/-- Claim C1 (amended): the multi-hop search seeded with chris (maxHops = 2,
hopDecay = 0.7, minTraversalConfidence = 0.6) surfaces the exchange ex3 that
contains dan→works_on→dashboard — indeed first, with merged score
0.882 = 2 × (0.9 × 0.7 × 0.7) — and the CTE reaches it via the 2-hop path
chris→dan→dashboard whose score is 0.9 × 0.7 × 0.7; the only amendment is
dropping the false "no direct chris–dashboard edge" clause (see the
counterexample). -/
theorem multihop_surfaces_ex3 :
    ((searchWithSeeds egScenarioState ["chris"] "main" egScenarioConfig 20).map
      (fun r => (r.id, r.score))) =
        [("ex3", 441/500), ("ex1", 63/100), ("ex2", 63/100)] ∧
    (hopRows egScenarioState ["chris"] "main" 2 (7/10) (3/5)).any (fun r =>
      decide (r.seq = ["chris", "dan", "dashboard"] ∧ r.sourceExchangeId = some "ex3" ∧
        r.depth = 2 ∧ r.score = 9/10 * (7/10) * (7/10))) = true ∧
    (441 : Rat)/500 = 9/10 * (7/10) * (7/10) + 9/10 * (7/10) * (7/10) := by
  refine ⟨?_, ?_, ?_⟩ <;> with_unfolding_all decide

/-! ### Claim C9 -/

theorem dedupById_sublist : ∀ (l : List Triple) (seen : List Nat),
    (dedupById seen l).Sublist l := by
  intro l
  induction l with
  | nil => intro seen; simp [dedupById]
  | cons t ts ih =>
      intro seen
      unfold dedupById
      split
      · exact (ih seen).cons t
      · exact (ih (t.id :: seen)).cons₂ t

theorem dedupById_nodup : ∀ (l : List Triple) (seen : List Nat),
    ((dedupById seen l).map (fun t => t.id)).Nodup ∧
      ∀ t ∈ dedupById seen l, t.id ∉ seen := by
  intro l
  induction l with
  | nil => intro seen; exact ⟨List.nodup_nil, by simp [dedupById]⟩
  | cons t ts ih =>
      intro seen
      unfold dedupById
      split
      case isTrue hmem => exact ih seen
      case isFalse hmem =>
        refine ⟨?_, ?_⟩
        · simp only [List.map_cons, List.nodup_cons]
          refine ⟨?_, (ih (t.id :: seen)).1⟩
          intro hin
          rcases List.mem_map.mp hin with ⟨u, hu, he⟩
          exact (ih (t.id :: seen)).2 u hu (by rw [he]; exact List.mem_cons_self _ _)
        · intro u hu
          rcases List.mem_cons.mp hu with rfl | hu2
          · exact hmem
          · intro hseen
            exact (ih (t.id :: seen)).2 u hu2 (List.mem_cons_of_mem _ hseen)

theorem dedupById_cons_mem {t : Triple} {seen : List Nat} {ts : List Triple}
    (h : t.id ∈ seen) : dedupById seen (t :: ts) = dedupById seen ts := by
  rw [dedupById, if_pos h]

theorem dedupById_cons_notMem {t : Triple} {seen : List Nat} {ts : List Triple}
    (h : ¬ t.id ∈ seen) : dedupById seen (t :: ts) = t :: dedupById (t.id :: seen) ts := by
  rw [dedupById, if_neg h]

theorem dedupById_append : ∀ (xs : List Triple) (seen : List Nat) (ys : List Triple),
    ∃ s', dedupById seen (xs ++ ys) = dedupById seen xs ++ dedupById s' ys := by
  intro xs
  induction xs with
  | nil => intro seen ys; exact ⟨seen, rfl⟩
  | cons t ts ih =>
      intro seen ys
      by_cases hv : t.id ∈ seen
      · rcases ih seen ys with ⟨s', hs'⟩
        refine ⟨s', ?_⟩
        rw [List.cons_append, dedupById_cons_mem hv, dedupById_cons_mem hv, hs']
      · rcases ih (t.id :: seen) ys with ⟨s', hs'⟩
        refine ⟨s', ?_⟩
        rw [List.cons_append, dedupById_cons_notMem hv, dedupById_cons_notMem hv, hs']
        rfl

theorem sortByUpdatedDesc_sorted (l : List Triple) :
    List.Sorted (fun a b : Triple => b.updatedAt ≤ a.updatedAt) (sortByUpdatedDesc l) := by
  have h := @List.sorted_mergeSort Triple
    (fun a b : Triple => decide (b.updatedAt ≤ a.updatedAt))
    (fun a b c hab hbc => by
      rw [decide_eq_true_iff] at *
      exact le_trans hbc hab)
    (fun a b => by
      rcases le_total a.updatedAt b.updatedAt with hc | hc <;> simp [hc])
    l
  exact h.imp (fun hab => of_decide_eq_true hab)

theorem sortByUpdatedDesc_mem (l : List Triple) (t : Triple) :
    t ∈ sortByUpdatedDesc l ↔ t ∈ l := List.mem_mergeSort

/-- Counterexample to C9 as stated: with a subject-side match updated at day 1
and an object-side match updated at day 5, `getTriplesFor` returns the stale
subject-side row first, so the whole returned list is not ordered by
descending `updated_at`. -/
def egOrderState : GraphState :=
  { triples := [
      { id := 1, subject := "e", predicate := "knows", object := "f", confidence := 1,
        sourceExchangeId := none, sourceDate := "", createdAt := 1, updatedAt := 1,
        agentId := "main", pendingResolution := false },
      { id := 2, subject := "g", predicate := "knows", object := "e", confidence := 1,
        sourceExchangeId := none, sourceDate := "", createdAt := 5, updatedAt := 5,
        agentId := "main", pendingResolution := false }],
    entities := [], coocs := [], patterns := [],
    nextTripleId := 3, nextPatternId := 1, now := 10, today := "" }

/-- Counterexample theorem for C9: the returned list is id 1 (updated day 1)
before id 2 (updated day 5) — most-recently-updated does not come first across
the subject- and object-side halves. -/
theorem getTriplesFor_not_globally_sorted :
    ((getTriplesFor egOrderState "e" (some "main") none).map
      (fun t => (t.id, t.updatedAt))) = [(1, 1), (2, 5)] ∧
    ¬ List.Sorted (fun a b : Triple => b.updatedAt ≤ a.updatedAt)
      (getTriplesFor egOrderState "e" (some "main") none) :=
  ⟨by with_unfolding_all decide, by with_unfolding_all decide⟩

/-- Claim C9 (amended): `getTriplesFor` returns only triples of the agent in
which the normalized entity appears as subject or object, with no triple id
repeated; the result is the subject-side block followed by the object-side
block, each block internally ordered most-recently-updated first — but there is
no global ordering across the two blocks (see the counterexample). -/
theorem getTriplesFor_shape (st : GraphState) (name : String) (agentId : Option String)
    (limit : Option Nat) :
    ((getTriplesFor st name agentId limit).map (fun t => t.id)).Nodup ∧
    (∀ t ∈ getTriplesFor st name agentId limit,
      (t.subject = normalizeEntityId name ∨ t.object = normalizeEntityId name) ∧
        t.agentId = agentOrMain agentId) ∧
    (∃ l1 l2, getTriplesFor st name agentId limit = l1 ++ l2 ∧
      List.Sorted (fun a b : Triple => b.updatedAt ≤ a.updatedAt) l1 ∧
      List.Sorted (fun a b : Triple => b.updatedAt ≤ a.updatedAt) l2 ∧
      (∀ t ∈ l1, t.subject = normalizeEntityId name) ∧
      (∀ t ∈ l2, t.object = normalizeEntityId name)) := by
  set id := normalizeEntityId name with hid
  set aid := agentOrMain agentId with haid
  set lim := (match limit with | none => 50 | some 0 => 50 | some l => l) with hlim
  have hr : getTriplesFor st name agentId limit =
      dedupById [] (getTriplesForSubject st id aid lim ++ getTriplesForObject st id aid lim) := rfl
  have hsubjMem : ∀ t ∈ getTriplesForSubject st id aid lim,
      t.subject = id ∧ t.agentId = aid := by
    intro t ht
    have h1 : t ∈ sortByUpdatedDesc (st.triples.filter
        (fun t => decide (t.subject = id ∧ t.agentId = aid))) :=
      (List.take_sublist _ _).mem ht
    have h2 := (List.mem_filter.mp ((sortByUpdatedDesc_mem _ t).mp h1)).2
    exact of_decide_eq_true h2
  have hobjMem : ∀ t ∈ getTriplesForObject st id aid lim,
      t.object = id ∧ t.agentId = aid := by
    intro t ht
    have h1 : t ∈ sortByUpdatedDesc (st.triples.filter
        (fun t => decide (t.object = id ∧ t.agentId = aid))) :=
      (List.take_sublist _ _).mem ht
    have h2 := (List.mem_filter.mp ((sortByUpdatedDesc_mem _ t).mp h1)).2
    exact of_decide_eq_true h2
  have hsubjSorted : List.Sorted (fun a b : Triple => b.updatedAt ≤ a.updatedAt)
      (getTriplesForSubject st id aid lim) :=
    (sortByUpdatedDesc_sorted _).sublist (List.take_sublist _ _)
  have hobjSorted : List.Sorted (fun a b : Triple => b.updatedAt ≤ a.updatedAt)
      (getTriplesForObject st id aid lim) :=
    (sortByUpdatedDesc_sorted _).sublist (List.take_sublist _ _)
  refine ⟨?_, ?_, ?_⟩
  · rw [hr]
    exact (dedupById_nodup _ []).1
  · intro t ht
    rw [hr] at ht
    have hm : t ∈ getTriplesForSubject st id aid lim ++ getTriplesForObject st id aid lim :=
      (dedupById_sublist _ []).mem ht
    rcases List.mem_append.mp hm with hm | hm
    · exact ⟨Or.inl (hsubjMem t hm).1, (hsubjMem t hm).2⟩
    · exact ⟨Or.inr (hobjMem t hm).1, (hobjMem t hm).2⟩
  · rcases dedupById_append (getTriplesForSubject st id aid lim) []
      (getTriplesForObject st id aid lim) with ⟨s', hs'⟩
    refine ⟨dedupById [] (getTriplesForSubject st id aid lim),
      dedupById s' (getTriplesForObject st id aid lim), by rw [hr, hs'], ?_, ?_, ?_, ?_⟩
    · exact hsubjSorted.sublist (dedupById_sublist _ [])
    · exact hobjSorted.sublist (dedupById_sublist _ s')
    · intro t ht
      exact (hsubjMem t ((dedupById_sublist _ []).mem ht)).1
    · intro t ht
      exact (hobjMem t ((dedupById_sublist _ s').mem ht)).1

/-- Witness for C9 (amended) at the concrete two-row store. -/
theorem getTriplesFor_shape_witness :
    ((getTriplesFor egOrderState "e" (some "main") none).map (fun t => t.id)).Nodup ∧
    (∀ t ∈ getTriplesFor egOrderState "e" (some "main") none,
      (t.subject = normalizeEntityId "e" ∨ t.object = normalizeEntityId "e") ∧
        t.agentId = agentOrMain (some "main")) ∧
    (∃ l1 l2, getTriplesFor egOrderState "e" (some "main") none = l1 ++ l2 ∧
      List.Sorted (fun a b : Triple => b.updatedAt ≤ a.updatedAt) l1 ∧
      List.Sorted (fun a b : Triple => b.updatedAt ≤ a.updatedAt) l2 ∧
      (∀ t ∈ l1, t.subject = normalizeEntityId "e") ∧
      (∀ t ∈ l2, t.object = normalizeEntityId "e")) :=
  getTriplesFor_shape egOrderState "e" (some "main") none

/-! ### Claim C10 -/

theorem scoreCandidate_bounds (st : GraphState) (cfg : ResolverConfig)
    (c : Entity) (ctx : List String) :
    1/2 ≤ scoreCandidate st cfg c ctx ∧ scoreCandidate st cfg c ctx ≤ 1 := by
  unfold scoreCandidate
  constructor
  · apply le_min (by norm_num)
    split_ifs <;> try norm_num
    all_goals (split_ifs <;> norm_num)
  · exact min_le_left _ _

/-- Claim C10: the resolver's candidate score always lies in [0.5, 1.0] (base
0.5 plus only non-negative boosts, capped at 1.0); hence whenever
`askThreshold ≤ 0.5` (default 0.4), `resolve` with exactly one candidate never
returns tier "ask" — the single-candidate ask branch is unreachable. -/
theorem resolve_single_no_ask (st : GraphState) (cfg : ResolverConfig) (mention : String)
    (aid : String) (ctx : List String) (hask : cfg.askThreshold ≤ 1/2) :
    (∀ c ctx2, 1/2 ≤ scoreCandidate st cfg c ctx2 ∧ scoreCandidate st cfg c ctx2 ≤ 1) ∧
    ((findCandidates st mention aid).length = 1 →
      (resolve st cfg mention aid ctx).tier ≠ "ask") := by
  refine ⟨fun c ctx2 => scoreCandidate_bounds st cfg c ctx2, ?_⟩
  intro hlen
  unfold resolve
  cases hg : getEntity st (normalizeEntityId mention) with
  | some e => simp
  | none =>
      dsimp only
      rcases List.length_eq_one.mp hlen with ⟨c, hc⟩
      rw [hc]
      rw [if_neg (by simp)]
      have hms : ([({ entity := c, resolutionScore := scoreCandidate st cfg c ctx } :
            ScoredCandidate)].mergeSort
          (fun a b => decide (b.resolutionScore ≤ a.resolutionScore))) =
          [({ entity := c, resolutionScore := scoreCandidate st cfg c ctx } : ScoredCandidate)] :=
        List.perm_singleton.mp (List.mergeSort_perm _ _)
      rw [List.map_cons, List.map_nil, hms]
      show (singleCandidateResult cfg
        { entity := c, resolutionScore := scoreCandidate st cfg c ctx }).tier ≠ "ask"
      unfold singleCandidateResult
      split
      · simp
      · rw [if_neg ?_]
        · simp
        · have hb := (scoreCandidate_bounds st cfg c ctx).1
          dsimp only
          intro hlt
          linarith

/-- A store whose only entity "Chris Smith" is the unique candidate for the
mention "chris". -/
def egResolveState : GraphState :=
  { triples := [],
    entities := [
      { id := "chris_smith", canonicalName := "Chris Smith", entityType := "PERSON",
        firstSeen := 0, lastSeen := 0, mentionCount := 1, aliases := [], agentId := "main" }],
    coocs := [], patterns := [], nextTripleId := 1, nextPatternId := 1, now := 0, today := "" }

/-- Witness for C10 with the default thresholds: "chris" has exactly one
candidate and resolves to "assume" (score 0.8), not "ask". -/
theorem resolve_single_no_ask_witness :
    ({} : ResolverConfig).askThreshold ≤ 1/2 ∧
    (findCandidates egResolveState "chris" "main").length = 1 ∧
    (resolve egResolveState {} "chris" "main" []).tier ≠ "ask" ∧
    (resolve egResolveState {} "chris" "main" []).tier = "assume" :=
  ⟨by norm_num [ResolverConfig.askThreshold],
   by with_unfolding_all decide,
   (resolve_single_no_ask egResolveState {} "chris" "main" []
      (by norm_num [ResolverConfig.askThreshold])).2
     (by with_unfolding_all decide),
   by with_unfolding_all decide⟩

/-! ### Claim C7 -/

/-- Well-formedness SQLite guarantees for the `triples` primary key: row ids
are distinct and below the AUTOINCREMENT counter. -/
def IdsWellFormed (st : GraphState) : Prop :=
  (st.triples.map (fun t => t.id)).Nodup ∧ ∀ t ∈ st.triples, t.id < st.nextTripleId

instance (st : GraphState) : Decidable (IdsWellFormed st) := by
  unfold IdsWellFormed; infer_instance

/-- The agent's slice of the `triples` table. -/
def agentTriples (st : GraphState) (a : String) : List Triple :=
  st.triples.filter (fun t => decide (t.agentId = a))

theorem bumpConfidence_id (n : Rat) (c : Option Rat) (i : Nat) (u : Triple) :
    (bumpConfidence n c i u).id = u.id := by
  unfold bumpConfidence
  split <;> rfl

theorem bumpConfidence_agentId (n : Rat) (c : Option Rat) (i : Nat) (u : Triple) :
    (bumpConfidence n c i u).agentId = u.agentId := by
  unfold bumpConfidence
  split <;> rfl

theorem addTriple_wf (st : GraphState) (hwf : IdsWellFormed st) (s p o : String)
    (conf : Option Rat) (exId dt agentId : Option String) (pend : Bool) :
    IdsWellFormed (addTriple st s p o conf exId dt agentId pend).1 := by
  unfold addTriple
  cases hf : st.triples.find? (fun t => decide (keyMatches t (normalizeEntityId s) p
      (normalizeEntityId o) (agentOrMain agentId))) with
  | some t =>
      dsimp only
      constructor
      · have he : st.triples.map (fun u => (bumpConfidence st.now conf t.id u).id) =
            st.triples.map (fun u => u.id) :=
          List.map_congr_left (fun u _ => bumpConfidence_id st.now conf t.id u)
        rw [List.map_map]
        simpa [Function.comp] using he ▸ hwf.1
      · intro u hu
        rcases List.mem_map.mp hu with ⟨v, hv, rfl⟩
        rw [bumpConfidence_id]
        exact hwf.2 v hv
  | none =>
      dsimp only
      constructor
      · rw [List.map_append, List.nodup_append]
        refine ⟨hwf.1, by simp, ?_⟩
        intro a ha hb
        have hb1 : a = st.nextTripleId := by simpa [newTripleOf] using hb
        rcases List.mem_map.mp ha with ⟨v, hv, rfl⟩
        exact Nat.ne_of_lt (hwf.2 v hv) hb1
      · intro u hu
        rcases List.mem_append.mp hu with hu | hu
        · exact Nat.lt_succ_of_lt (hwf.2 u hu)
        · have : u = newTripleOf st s p o conf exId dt agentId pend := by simpa using hu
          rw [this]
          exact Nat.lt_succ_self _

theorem addTriple_agentTriples (st : GraphState) (hwf : IdsWellFormed st) (A B : String)
    (hAB : A ≠ B) (s p o : String) (conf : Option Rat) (exId dt : Option String)
    (pend : Bool) :
    agentTriples (addTriple st s p o conf exId dt (some B) pend).1 A = agentTriples st A := by
  unfold addTriple
  cases hf : st.triples.find? (fun t => decide (keyMatches t (normalizeEntityId s) p
      (normalizeEntityId o) (agentOrMain (some B)))) with
  | none =>
      dsimp only
      unfold agentTriples
      dsimp only
      rw [List.filter_append]
      have hB : (newTripleOf st s p o conf exId dt (some B) pend).agentId = B := rfl
      have hBA : ¬ B = A := fun h => hAB h.symm
      have : ([newTripleOf st s p o conf exId dt (some B) pend].filter
          (fun t => decide (t.agentId = A))) = [] := by
        simp [hB, hBA]
      rw [this, List.append_nil]
  | some t =>
      dsimp only
      have htmem : t ∈ st.triples := List.mem_of_find?_eq_some hf
      have hkt : decide (keyMatches t (normalizeEntityId s) p (normalizeEntityId o)
          (agentOrMain (some B))) = true := by
        have h0 := List.find?_some hf
        exact h0
      have htagent : t.agentId = B := (of_decide_eq_true hkt).2.2.2
      unfold agentTriples
      dsimp only
      rw [List.filter_map]
      have hpe : ∀ u ∈ st.triples,
          ((fun t => decide (t.agentId = A)) ∘ bumpConfidence st.now conf t.id) u =
            decide (u.agentId = A) := by
        intro u _
        simp [Function.comp, bumpConfidence_agentId]
      rw [List.filter_congr hpe]
      have hfix : ∀ u ∈ st.triples.filter (fun t => decide (t.agentId = A)),
          bumpConfidence st.now conf t.id u = u := by
        intro u hu
        have huA : u.agentId = A := of_decide_eq_true (List.mem_filter.mp hu).2
        have humem : u ∈ st.triples := (List.mem_filter.mp hu).1
        unfold bumpConfidence
        rw [if_neg ?_]
        intro hid
        have hut : u = t := List.inj_on_of_nodup_map hwf.1 humem htmem hid
        rw [hut, htagent] at huA
        exact hAB huA.symm
      rw [List.map_congr_left hfix]
      simp

theorem upsertEntity_nextTripleId (st : GraphState) (n : String) (ty a : Option String) :
    (upsertEntity st n ty a).1.nextTripleId = st.nextTripleId := by
  unfold upsertEntity
  dsimp only
  split <;> rfl

theorem upsertCooccurrence_nextTripleId (st : GraphState) (a b : String) :
    (upsertCooccurrence st a b).nextTripleId = st.nextTripleId := by
  unfold upsertCooccurrence
  split <;> rfl

theorem applyEntities_nextTripleId (aid : String) (es : List ExchangeEntity) :
    ∀ st : GraphState, (applyEntities aid st es).nextTripleId = st.nextTripleId := by
  induction es with
  | nil => intro st; rfl
  | cons e es ih =>
      intro st
      show (applyEntities aid (upsertEntity st e.name e.type (some aid)).1 es).nextTripleId = _
      rw [ih, upsertEntity_nextTripleId]

theorem applyCoocs_nextTripleId (cs : List (String × String)) :
    ∀ st : GraphState, (applyCoocs st cs).nextTripleId = st.nextTripleId := by
  induction cs with
  | nil => intro st; rfl
  | cons c cs ih =>
      intro st
      rcases c with ⟨a, b⟩
      show (applyCoocs (upsertCooccurrence st _ _) cs).nextTripleId = _
      rw [ih, upsertCooccurrence_nextTripleId]

theorem applyTriples_agentTriples (exId : Option String) (date : String)
    (A B : String) (hAB : A ≠ B) (ts : List ExchangeTriple) :
    ∀ st : GraphState, IdsWellFormed st →
      agentTriples (applyTriples B exId date st ts).1 A = agentTriples st A := by
  induction ts with
  | nil => intro st _; rfl
  | cons t ts ih =>
      intro st hwf
      show agentTriples (applyTriples B exId date
        (addTriple st t.subject t.predicate t.object t.confidence exId (some date)
          (some B) false).1 ts).1 A = _
      rw [ih _ (addTriple_wf st hwf _ _ _ _ _ _ _ _)]
      exact addTriple_agentTriples st hwf A B hAB _ _ _ _ _ _ _

theorem writeExchangeApply_agentTriples (st : GraphState) (hwf : IdsWellFormed st)
    (A B : String) (hAB : A ≠ B) (es : List ExchangeEntity) (ts : List ExchangeTriple)
    (cs : List (String × String)) (exId dt : Option String) :
    agentTriples (writeExchangeApply st es ts cs (some B) exId dt).1 A = agentTriples st A := by
  unfold writeExchangeApply
  dsimp only
  simp only [agentOrMain]
  have h1 : agentTriples (applyCoocs (applyTriples B exId (dt.getD st.today)
      (applyEntities B st es) ts).1 cs) A =
      agentTriples (applyTriples B exId (dt.getD st.today)
        (applyEntities B st es) ts).1 A := by
    unfold agentTriples
    rw [applyCoocs_triples]
  rw [h1]
  have hwf1 : IdsWellFormed (applyEntities B st es) := by
    unfold IdsWellFormed
    rw [applyEntities_triples, applyEntities_nextTripleId]
    exact hwf
  have h2 := applyTriples_agentTriples exId (dt.getD st.today) A B hAB ts
    (applyEntities B st es) hwf1
  rw [h2]
  unfold agentTriples
  rw [applyEntities_triples]

theorem getTriplesFor_congr (st st' : GraphState) (A : String)
    (h : agentTriples st' A = agentTriples st A) (e : String) (lim : Option Nat) :
    getTriplesFor st' e (some A) lim = getTriplesFor st e (some A) lim := by
  unfold getTriplesFor getTriplesForSubject getTriplesForObject
  dsimp only
  simp only [agentOrMain, Bool.decide_and]
  have key : ∀ (st₀ : GraphState) (q : Triple → Bool),
      st₀.triples.filter (fun t => q t && decide (t.agentId = A)) =
        (agentTriples st₀ A).filter q := by
    intro st₀ q
    unfold agentTriples
    rw [List.filter_filter]
  rw [key st', key st', key st, key st, h]

theorem countTriples_congr (st st' : GraphState) (A : String)
    (h : agentTriples st' A = agentTriples st A) : countTriples st' A = countTriples st A := by
  unfold countTriples
  unfold agentTriples at h
  rw [h]

/-- A store with a single co-occurrence row, as left by agent "beta"'s write. -/
theorem cooccurrence_readback_leak :
    ("beta" : String) ≠ "main" ∧
    getCooccurrences (writeExchange egEmpty [] [] [("x", "y")] (some "beta")
        none none none).1 "x" none ≠ getCooccurrences egEmpty "x" none ∧
    ((writeExchange egEmpty [] [] [("x", "y")] (some "beta") none none none).1.coocs.map
      (fun c => (c.entityA, c.entityB, c.count))) = [("x", "y", 1)] := by
  refine ⟨by decide, ?_, ?_⟩ <;> with_unfolding_all decide

/-- Claim C7 (amended): within one store, only the *triple* state is
partitioned by agent id — writes by agent B (entity upsert, triple add, full
`writeExchange` batch) leave every triple read of a distinct agent A
(`getTriplesFor`, triple count) unchanged.  The co-occurrence table has no
agent column (B's write changes A's `getCooccurrences` readback — see the
counterexample), and the entity table's primary key is global, so full
per-agent isolation of the deployed system comes from one database file per
agent, not from this schema. -/
theorem triple_reads_agent_isolated (st : GraphState) (hwf : IdsWellFormed st)
    (A B : String) (hAB : A ≠ B) :
    (∀ name ty e lim,
      getTriplesFor (upsertEntity st name ty (some B)).1 e (some A) lim =
        getTriplesFor st e (some A) lim ∧
      countTriples (upsertEntity st name ty (some B)).1 A = countTriples st A) ∧
    (∀ s p o conf exId dt pend e lim,
      getTriplesFor (addTriple st s p o conf exId dt (some B) pend).1 e (some A) lim =
        getTriplesFor st e (some A) lim ∧
      countTriples (addTriple st s p o conf exId dt (some B) pend).1 A = countTriples st A) ∧
    (∀ es ts cs exId dt budget e lim,
      getTriplesFor (writeExchange st es ts cs (some B) exId dt budget).1 e (some A) lim =
        getTriplesFor st e (some A) lim ∧
      countTriples (writeExchange st es ts cs (some B) exId dt budget).1 A =
        countTriples st A) := by
  refine ⟨?_, ?_, ?_⟩
  · intro name ty e lim
    have ha : agentTriples (upsertEntity st name ty (some B)).1 A = agentTriples st A := by
      unfold agentTriples
      rw [upsertEntity_triples]
    exact ⟨getTriplesFor_congr st _ A ha e lim, countTriples_congr st _ A ha⟩
  · intro s p o conf exId dt pend e lim
    have ha := addTriple_agentTriples st hwf A B hAB s p o conf exId dt pend
    exact ⟨getTriplesFor_congr st _ A ha e lim, countTriples_congr st _ A ha⟩
  · intro es ts cs exId dt budget e lim
    rcases writeExchange_state_cases st es ts cs (some B) exId dt budget with hc | hc
    · rw [hc]
      exact ⟨rfl, rfl⟩
    · rw [hc]
      have ha := writeExchangeApply_agentTriples st hwf A B hAB es ts cs exId dt
      exact ⟨getTriplesFor_congr st _ A ha e lim, countTriples_congr st _ A ha⟩

/-- Witness for C7 (amended): agent "beta"'s triple insert does not change
agent "main"'s `getTriplesFor` readback on the scenario store. -/
theorem triple_reads_agent_isolated_witness :
    IdsWellFormed egScenarioState ∧ ("main" : String) ≠ "beta" ∧
    getTriplesFor (addTriple egScenarioState "zoe" "knows" "kim" (some 1) none none
        (some "beta") false).1 "chris" (some "main") none =
      getTriplesFor egScenarioState "chris" (some "main") none :=
  ⟨by with_unfolding_all decide, by decide,
   ((triple_reads_agent_isolated egScenarioState (by with_unfolding_all decide)
       "main" "beta" (by decide)).2.1 "zoe" "knows" "kim" (some 1) none none false
     "chris" none).1⟩

/-! ### Claim C8 -/

theorem discoverToSave_gate (st : GraphState) (cfg : DiscoveryConfig) (aid : String) :
    ∀ c ∈ discoverToSave st cfg aid,
      c.2.2.1 ≤ cfg.maxOverlap ∧ cfg.minYield ≤ c.2.1 := by
  intro c hc
  unfold discoverToSave at hc
  have h1 : c ∈ (discoverScored st cfg aid).mergeSort
      (fun a b => decide (b.2.2.2 ≤ a.2.2.2)) := (List.take_sublist _ _).mem hc
  have h2 : c ∈ discoverScored st cfg aid := List.mem_mergeSort.mp h1
  unfold discoverScored at h2
  split at h2
  · simp at h2
  · rcases List.mem_filterMap.mp h2 with ⟨preds, _, heq⟩
    cases he : evalPattern st cfg aid preds with
    | none => rw [he] at heq; simp at heq
    | some v =>
        rcases v with ⟨y, ov, avg⟩
        rw [he] at heq
        dsimp only at heq
        split at heq
        case isTrue hgate =>
            have hc2 : (preds, y, ov, (y : Rat) * (1 - ov) * avg) = c := by
              simpa using heq
            rw [← hc2]
            exact ⟨hgate.1, hgate.2⟩
        case isFalse => simp at heq

theorem savePattern_triples (st : GraphState) (aid : String) (preds : List String)
    (w y ov : Rat) : (savePattern st aid preds w y ov).1.triples = st.triples := by
  unfold savePattern
  cases st.patterns.find? (fun p => decide (p.predicates = preds ∧ p.agentId = aid)) <;> rfl

theorem savePattern_now (st : GraphState) (aid : String) (preds : List String)
    (w y ov : Rat) : (savePattern st aid preds w y ov).1.now = st.now := by
  unfold savePattern
  cases st.patterns.find? (fun p => decide (p.predicates = preds ∧ p.agentId = aid)) <;> rfl

theorem deactivatePattern_triples (st : GraphState) (pid : Nat) :
    (deactivatePattern st pid).triples = st.triples := rfl

theorem deactivatePattern_now (st : GraphState) (pid : Nat) :
    (deactivatePattern st pid).now = st.now := rfl

theorem evalPattern_congr (st st' : GraphState) (cfg : DiscoveryConfig) (aid : String)
    (preds : List String) (ht : st'.triples = st.triples) (hn : st'.now = st.now) :
    evalPattern st' cfg aid preds = evalPattern st cfg aid preds := by
  unfold evalPattern evalStep pairRows2 pairRows3 recencyFactor
  rw [ht, hn]

theorem savePattern_update_patterns (st : GraphState) (aid : String) (preds : List String)
    (w y ov : Rat) (ex : MetaPattern)
    (hf : st.patterns.find? (fun p => decide (p.predicates = preds ∧ p.agentId = aid)) =
      some ex) :
    (savePattern st aid preds w y ov).1.patterns = st.patterns.map (fun p =>
      if p.id = ex.id then
        { p with weight := w, yieldScore := y, overlap := ov, active := true }
      else p) := by
  unfold savePattern
  rw [hf]

theorem deactivatePattern_patterns (st : GraphState) (pid : Nat) :
    (deactivatePattern st pid).patterns = st.patterns.map (fun p =>
      if p.id = pid then { p with active := false } else p) := rfl

theorem deactivate_inactivates (st : GraphState) (dpid : Nat) :
    ∀ q ∈ (deactivatePattern st dpid).patterns, q.id = dpid → q.active = false := by
  intro q hq hqid
  rw [deactivatePattern_patterns] at hq
  rcases List.mem_map.mp hq with ⟨q0, _, rfl⟩
  by_cases hc : q0.id = dpid
  · rw [if_pos hc]
  · rw [if_neg hc] at hqid ⊢
    exact absurd hqid hc

theorem deactivate_keeps_inactive (st : GraphState) (pid dpid : Nat)
    (h1 : ∀ q ∈ st.patterns, q.id = pid → q.active = false) :
    ∀ q ∈ (deactivatePattern st dpid).patterns, q.id = pid → q.active = false := by
  intro q hq hqid
  rw [deactivatePattern_patterns] at hq
  rcases List.mem_map.mp hq with ⟨q0, hq0, rfl⟩
  by_cases hc : q0.id = dpid
  · rw [if_pos hc]
  · rw [if_neg hc] at hqid ⊢
    exact h1 q0 hq0 hqid

theorem patkey_transfer_exists (pats : List MetaPattern) (f : MetaPattern → MetaPattern)
    (hk : ∀ p : MetaPattern, (f p).id = p.id ∧ (f p).predicates = p.predicates ∧
      (f p).agentId = p.agentId)
    (preds : List String) (aid : String)
    (h : ∃ row ∈ pats, row.predicates = preds ∧ row.agentId = aid) :
    ∃ row ∈ pats.map f, row.predicates = preds ∧ row.agentId = aid := by
  rcases h with ⟨row, hrow, h1, h2⟩
  exact ⟨f row, List.mem_map_of_mem f hrow,
    by rw [(hk row).2.1]; exact h1, by rw [(hk row).2.2]; exact h2⟩

theorem patkey_map_ids (pats : List MetaPattern) (f : MetaPattern → MetaPattern)
    (hk : ∀ p : MetaPattern, (f p).id = p.id ∧ (f p).predicates = p.predicates ∧
      (f p).agentId = p.agentId) :
    (pats.map f).map (fun q => q.id) = pats.map (fun q => q.id) := by
  rw [List.map_map]
  exact List.map_congr_left (fun q _ => (hk q).1)

theorem hk_deactivate (dpid : Nat) : ∀ p : MetaPattern,
    ((fun p : MetaPattern => if p.id = dpid then { p with active := false } else p) p).id = p.id ∧
    ((fun p : MetaPattern => if p.id = dpid then { p with active := false } else p) p).predicates
      = p.predicates ∧
    ((fun p : MetaPattern => if p.id = dpid then { p with active := false } else p) p).agentId
      = p.agentId := by
  intro p
  dsimp only
  split <;> exact ⟨rfl, rfl, rfl⟩

theorem hk_save (exid : Nat) (w y ov : Rat) : ∀ p : MetaPattern,
    ((fun p : MetaPattern => if p.id = exid then
        { p with weight := w, yieldScore := y, overlap := ov, active := true }
      else p) p).id = p.id ∧
    ((fun p : MetaPattern => if p.id = exid then
        { p with weight := w, yieldScore := y, overlap := ov, active := true }
      else p) p).predicates = p.predicates ∧
    ((fun p : MetaPattern => if p.id = exid then
        { p with weight := w, yieldScore := y, overlap := ov, active := true }
      else p) p).agentId = p.agentId := by
  intro p
  dsimp only
  split <;> exact ⟨rfl, rfl, rfl⟩

theorem find?_pattern_key (st : GraphState) (aid : String) (preds : List String)
    (ex : MetaPattern)
    (hf : st.patterns.find? (fun p => decide (p.predicates = preds ∧ p.agentId = aid)) =
      some ex) : ex.predicates = preds ∧ ex.agentId = aid := by
  have h0 : decide (ex.predicates = preds ∧ ex.agentId = aid) = true := by
    have := List.find?_some hf
    exact this
  exact of_decide_eq_true h0

theorem validateLoop_keeps_inactive (cfg : DiscoveryConfig) (aid : String) (pid : Nat) :
    ∀ (l : List MetaPattern) (st : GraphState) (v r : Nat),
      (∀ q ∈ st.patterns, q.id = pid → q.active = false) →
      (∀ q ∈ l, ∃ row ∈ st.patterns, row.predicates = q.predicates ∧ row.agentId = aid) →
      (∀ q ∈ l, ∀ row ∈ st.patterns,
        row.predicates = q.predicates ∧ row.agentId = aid → row.id ≠ pid) →
      ∀ q ∈ (validateLoop cfg aid st l v r).1.patterns, q.id = pid → q.active = false := by
  intro l
  induction l with
  | nil => intro st v r h1 _ _ q hq; exact h1 q hq
  | cons p0 rest ih =>
      intro st v r h1 h2 h3
      by_cases hstat : p0.patternType = "static"
      · have hstep : validateLoop cfg aid st (p0 :: rest) v r =
            validateLoop cfg aid st rest v r := by
          rw [validateLoop, if_pos hstat]
        rw [hstep]
        exact ih st v r h1 (fun q hq => h2 q (List.mem_cons_of_mem _ hq))
          (fun q hq => h3 q (List.mem_cons_of_mem _ hq))
      · cases he : evalPattern st cfg aid p0.predicates with
        | none =>
            have hstep : validateLoop cfg aid st (p0 :: rest) v r =
                validateLoop cfg aid (deactivatePattern st p0.id) rest v (r + 1) := by
              rw [validateLoop, if_neg hstat, he]
            rw [hstep]
            refine ih _ v (r + 1) (deactivate_keeps_inactive st pid p0.id h1) ?_ ?_
            · intro q hq
              rw [deactivatePattern_patterns]
              exact patkey_transfer_exists st.patterns _ (hk_deactivate p0.id) _ aid
                (h2 q (List.mem_cons_of_mem _ hq))
            · intro q hq row hrow hkey
              rw [deactivatePattern_patterns] at hrow
              rcases List.mem_map.mp hrow with ⟨r0, hr0, rfl⟩
              rw [(hk_deactivate p0.id r0).1]
              refine h3 q (List.mem_cons_of_mem _ hq) r0 hr0 ?_
              exact ⟨by rw [← (hk_deactivate p0.id r0).2.1]; exact hkey.1,
                by rw [← (hk_deactivate p0.id r0).2.2]; exact hkey.2⟩
        | some v0 =>
            rcases v0 with ⟨y, ov, avg⟩
            by_cases hg : y < cfg.minYield ∨ ov > cfg.maxOverlap
            · have hstep : validateLoop cfg aid st (p0 :: rest) v r =
                  validateLoop cfg aid (deactivatePattern st p0.id) rest v (r + 1) := by
                rw [validateLoop, if_neg hstat, he]
                dsimp only
                rw [if_pos hg]
              rw [hstep]
              refine ih _ v (r + 1) (deactivate_keeps_inactive st pid p0.id h1) ?_ ?_
              · intro q hq
                rw [deactivatePattern_patterns]
                exact patkey_transfer_exists st.patterns _ (hk_deactivate p0.id) _ aid
                  (h2 q (List.mem_cons_of_mem _ hq))
              · intro q hq row hrow hkey
                rw [deactivatePattern_patterns] at hrow
                rcases List.mem_map.mp hrow with ⟨r0, hr0, rfl⟩
                rw [(hk_deactivate p0.id r0).1]
                refine h3 q (List.mem_cons_of_mem _ hq) r0 hr0 ?_
                exact ⟨by rw [← (hk_deactivate p0.id r0).2.1]; exact hkey.1,
                  by rw [← (hk_deactivate p0.id r0).2.2]; exact hkey.2⟩
            · rcases h2 p0 (List.mem_cons_self _ _) with ⟨row, hrow, hkrow⟩
              have hfs : (st.patterns.find? (fun p =>
                  decide (p.predicates = p0.predicates ∧ p.agentId = aid))).isSome := by
                rw [List.find?_isSome]
                exact ⟨row, hrow, by rw [decide_eq_true_iff]; exact hkrow⟩
              rcases Option.isSome_iff_exists.mp hfs with ⟨ex, hex⟩
              have hexmem : ex ∈ st.patterns := List.mem_of_find?_eq_some hex
              have hexkey := find?_pattern_key st aid p0.predicates ex hex
              have hexid : ex.id ≠ pid := h3 p0 (List.mem_cons_self _ _) ex hexmem hexkey
              have hstep : validateLoop cfg aid st (p0 :: rest) v r =
                  validateLoop cfg aid (savePattern st aid p0.predicates
                    (min ((y : Rat) * (1 - ov) * avg) 1) (y : Rat) ov).1 rest (v + 1) r := by
                rw [validateLoop, if_neg hstat, he]
                dsimp only
                rw [if_neg hg]
              rw [hstep]
              have hpats := savePattern_update_patterns st aid p0.predicates
                (min ((y : Rat) * (1 - ov) * avg) 1) (y : Rat) ov ex hex
              refine ih _ (v + 1) r ?_ ?_ ?_
              · intro q hq hqid
                rw [hpats] at hq
                rcases List.mem_map.mp hq with ⟨q0, hq0, rfl⟩
                have hid := (hk_save ex.id (min ((y : Rat) * (1 - ov) * avg) 1) (y : Rat) ov q0).1
                rw [hid] at hqid
                by_cases hc : q0.id = ex.id
                · exact absurd (hc ▸ hqid : ex.id = pid) hexid
                · rw [if_neg hc]
                  exact h1 q0 hq0 hqid
              · intro q hq
                rw [hpats]
                exact patkey_transfer_exists st.patterns _
                  (hk_save ex.id (min ((y : Rat) * (1 - ov) * avg) 1) (y : Rat) ov) _ aid
                  (h2 q (List.mem_cons_of_mem _ hq))
              · intro q hq row2 hrow2 hkey2
                rw [hpats] at hrow2
                rcases List.mem_map.mp hrow2 with ⟨r0, hr0, rfl⟩
                rw [(hk_save ex.id (min ((y : Rat) * (1 - ov) * avg) 1) (y : Rat) ov r0).1]
                refine h3 q (List.mem_cons_of_mem _ hq) r0 hr0 ?_
                exact ⟨by
                    rw [← (hk_save ex.id (min ((y : Rat) * (1 - ov) * avg) 1) (y : Rat) ov r0).2.1]
                    exact hkey2.1,
                  by
                    rw [← (hk_save ex.id (min ((y : Rat) * (1 - ov) * avg) 1) (y : Rat) ov r0).2.2]
                    exact hkey2.2⟩

theorem rest_keyid (st : GraphState) (aid : String) (p : MetaPattern)
    (rest : List MetaPattern)
    (hids : (st.patterns.map (fun q => q.id)).Nodup)
    (hP : ∃ row ∈ st.patterns, row.id = p.id ∧ row.predicates = p.predicates ∧
      row.agentId = p.agentId)
    (hhead : ∀ q ∈ rest, ¬(p.predicates = q.predicates ∧ p.agentId = q.agentId))
    (hpaid : p.agentId = aid)
    (haidrest : ∀ q ∈ rest, q.agentId = aid) :
    ∀ q ∈ rest, ∀ row ∈ st.patterns,
      row.predicates = q.predicates ∧ row.agentId = aid → row.id ≠ p.id := by
  intro q hq row hrow hkey hid
  rcases hP with ⟨rowP, hrowP, hidP, hpredP, haidP⟩
  have hre : row = rowP := List.inj_on_of_nodup_map hids hrow hrowP (by rw [hid, hidP])
  apply hhead q hq
  constructor
  · rw [← hpredP, ← hre]
    exact hkey.1
  · rw [hpaid, haidrest q hq]

theorem retire_transfer (st : GraphState) (aid : String) (p : MetaPattern)
    (rest : List MetaPattern) (f : MetaPattern → MetaPattern)
    (hk : ∀ q : MetaPattern, (f q).id = q.id ∧ (f q).predicates = q.predicates ∧
      (f q).agentId = q.agentId)
    (h2 : ∀ q ∈ rest, ∃ row ∈ st.patterns, row.predicates = q.predicates ∧ row.agentId = aid)
    (hids : (st.patterns.map (fun q => q.id)).Nodup)
    (hP : ∃ row ∈ st.patterns, row.id = p.id ∧ row.predicates = p.predicates ∧
      row.agentId = p.agentId) :
    (∀ q ∈ rest, ∃ row ∈ st.patterns.map f, row.predicates = q.predicates ∧
      row.agentId = aid) ∧
    ((st.patterns.map f).map (fun q => q.id)).Nodup ∧
    (∃ row ∈ st.patterns.map f, row.id = p.id ∧ row.predicates = p.predicates ∧
      row.agentId = p.agentId) := by
  refine ⟨?_, ?_, ?_⟩
  · intro q hq
    exact patkey_transfer_exists st.patterns f hk _ aid (h2 q hq)
  · rw [patkey_map_ids st.patterns f hk]
    exact hids
  · rcases hP with ⟨row, hrow, ha, hb, hc⟩
    exact ⟨f row, List.mem_map_of_mem f hrow, by rw [(hk row).1]; exact ha,
      by rw [(hk row).2.1]; exact hb, by rw [(hk row).2.2]; exact hc⟩

theorem validateLoop_retires (cfg : DiscoveryConfig) (aid : String) (p : MetaPattern)
    (hstatic : p.patternType ≠ "static") :
    ∀ (l : List MetaPattern) (st : GraphState) (v r : Nat),
      p ∈ l →
      l.Pairwise (fun a b => ¬(a.predicates = b.predicates ∧ a.agentId = b.agentId)) →
      (∀ q ∈ l, q.agentId = aid) →
      (∀ q ∈ l, ∃ row ∈ st.patterns, row.predicates = q.predicates ∧ row.agentId = aid) →
      (st.patterns.map (fun q => q.id)).Nodup →
      (∃ row ∈ st.patterns, row.id = p.id ∧ row.predicates = p.predicates ∧
        row.agentId = p.agentId) →
      (∀ y ov avg, evalPattern st cfg aid p.predicates = some (y, ov, avg) →
        y < cfg.minYield ∨ ov > cfg.maxOverlap) →
      ∀ q ∈ (validateLoop cfg aid st l v r).1.patterns, q.id = p.id → q.active = false := by
  intro l
  induction l with
  | nil => intro st v r hmem; exact absurd hmem (List.not_mem_nil p)
  | cons p0 rest ih =>
      intro st v r hmem hpair haid h2 hids hP hgate
      rcases List.pairwise_cons.mp hpair with ⟨hhead0, htail⟩
      rcases List.mem_cons.mp hmem with heq | hmemr
      · subst heq
        have hpaid : p.agentId = aid := haid p (List.mem_cons_self _ _)
        have haidrest : ∀ q ∈ rest, q.agentId = aid :=
          fun q hq => haid q (List.mem_cons_of_mem _ hq)
        have hafter : ∀ (v' r' : Nat),
            ∀ q ∈ (validateLoop cfg aid (deactivatePattern st p.id) rest v' r').1.patterns,
              q.id = p.id → q.active = false := by
          intro v' r'
          apply validateLoop_keeps_inactive cfg aid p.id rest (deactivatePattern st p.id) v' r'
          · exact deactivate_inactivates st p.id
          · intro q hq
            rw [deactivatePattern_patterns]
            exact patkey_transfer_exists st.patterns _ (hk_deactivate p.id) _ aid
              (h2 q (List.mem_cons_of_mem _ hq))
          · intro q hq row hrow hkey
            rw [deactivatePattern_patterns] at hrow
            rcases List.mem_map.mp hrow with ⟨r0, hr0, rfl⟩
            rw [(hk_deactivate p.id r0).1]
            refine rest_keyid st aid p rest hids hP hhead0 hpaid haidrest q hq r0 hr0 ?_
            exact ⟨by rw [← (hk_deactivate p.id r0).2.1]; exact hkey.1,
              by rw [← (hk_deactivate p.id r0).2.2]; exact hkey.2⟩
        cases he : evalPattern st cfg aid p.predicates with
        | none =>
            have hstep : validateLoop cfg aid st (p :: rest) v r =
                validateLoop cfg aid (deactivatePattern st p.id) rest v (r + 1) := by
              rw [validateLoop, if_neg hstatic, he]
            rw [hstep]
            exact hafter v (r + 1)
        | some v0 =>
            rcases v0 with ⟨y, ov, avg⟩
            have hg := hgate y ov avg he
            have hstep : validateLoop cfg aid st (p :: rest) v r =
                validateLoop cfg aid (deactivatePattern st p.id) rest v (r + 1) := by
              rw [validateLoop, if_neg hstatic, he]
              dsimp only
              rw [if_pos hg]
            rw [hstep]
            exact hafter v (r + 1)
      · have haidrest : ∀ q ∈ rest, q.agentId = aid :=
          fun q hq => haid q (List.mem_cons_of_mem _ hq)
        have h2rest : ∀ q ∈ rest, ∃ row ∈ st.patterns,
            row.predicates = q.predicates ∧ row.agentId = aid :=
          fun q hq => h2 q (List.mem_cons_of_mem _ hq)
        by_cases hstat0 : p0.patternType = "static"
        · have hstep : validateLoop cfg aid st (p0 :: rest) v r =
              validateLoop cfg aid st rest v r := by
            rw [validateLoop, if_pos hstat0]
          rw [hstep]
          exact ih st v r hmemr htail haidrest h2rest hids hP hgate
        · cases he0 : evalPattern st cfg aid p0.predicates with
          | none =>
              have hstep : validateLoop cfg aid st (p0 :: rest) v r =
                  validateLoop cfg aid (deactivatePattern st p0.id) rest v (r + 1) := by
                rw [validateLoop, if_neg hstat0, he0]
              rw [hstep]
              have htr := retire_transfer st aid p rest _ (hk_deactivate p0.id) h2rest hids hP
              refine ih _ v (r + 1) hmemr htail haidrest ?_ ?_ ?_ ?_
              · intro q hq
                rw [deactivatePattern_patterns]
                exact htr.1 q hq
              · rw [deactivatePattern_patterns]
                exact htr.2.1
              · rw [deactivatePattern_patterns]
                exact htr.2.2
              · intro y ov avg hsome
                rw [evalPattern_congr st (deactivatePattern st p0.id) cfg aid p.predicates
                  rfl rfl] at hsome
                exact hgate y ov avg hsome
          | some v0 =>
              rcases v0 with ⟨y0, ov0, avg0⟩
              by_cases hg0 : y0 < cfg.minYield ∨ ov0 > cfg.maxOverlap
              · have hstep : validateLoop cfg aid st (p0 :: rest) v r =
                    validateLoop cfg aid (deactivatePattern st p0.id) rest v (r + 1) := by
                  rw [validateLoop, if_neg hstat0, he0]
                  dsimp only
                  rw [if_pos hg0]
                rw [hstep]
                have htr := retire_transfer st aid p rest _ (hk_deactivate p0.id) h2rest hids hP
                refine ih _ v (r + 1) hmemr htail haidrest ?_ ?_ ?_ ?_
                · intro q hq
                  rw [deactivatePattern_patterns]
                  exact htr.1 q hq
                · rw [deactivatePattern_patterns]
                  exact htr.2.1
                · rw [deactivatePattern_patterns]
                  exact htr.2.2
                · intro y ov avg hsome
                  rw [evalPattern_congr st (deactivatePattern st p0.id) cfg aid p.predicates
                    rfl rfl] at hsome
                  exact hgate y ov avg hsome
              · rcases h2 p0 (List.mem_cons_self _ _) with ⟨row, hrow, hkrow⟩
                have hfs : (st.patterns.find? (fun q =>
                    decide (q.predicates = p0.predicates ∧ q.agentId = aid))).isSome := by
                  rw [List.find?_isSome]
                  exact ⟨row, hrow, by rw [decide_eq_true_iff]; exact hkrow⟩
                rcases Option.isSome_iff_exists.mp hfs with ⟨ex, hex⟩
                have hstep : validateLoop cfg aid st (p0 :: rest) v r =
                    validateLoop cfg aid (savePattern st aid p0.predicates
                      (min ((y0 : Rat) * (1 - ov0) * avg0) 1) (y0 : Rat) ov0).1
                      rest (v + 1) r := by
                  rw [validateLoop, if_neg hstat0, he0]
                  dsimp only
                  rw [if_neg hg0]
                rw [hstep]
                have hpats := savePattern_update_patterns st aid p0.predicates
                  (min ((y0 : Rat) * (1 - ov0) * avg0) 1) (y0 : Rat) ov0 ex hex
                have htr := retire_transfer st aid p rest _
                  (hk_save ex.id (min ((y0 : Rat) * (1 - ov0) * avg0) 1) (y0 : Rat) ov0)
                  h2rest hids hP
                refine ih _ (v + 1) r hmemr htail haidrest ?_ ?_ ?_ ?_
                · intro q hq
                  rw [hpats]
                  exact htr.1 q hq
                · rw [hpats]
                  exact htr.2.1
                · rw [hpats]
                  exact htr.2.2
                · intro y ov avg hsome
                  rw [evalPattern_congr st (savePattern st aid p0.predicates
                    (min ((y0 : Rat) * (1 - ov0) * avg0) 1) (y0 : Rat) ov0).1 cfg aid
                    p.predicates (savePattern_triples st aid p0.predicates _ _ _)
                    (savePattern_now st aid p0.predicates _ _ _)] at hsome
                  exact hgate y ov avg hsome

theorem getActivePatterns_mem (st : GraphState) (aid : String) (q : MetaPattern)
    (hq : q ∈ getActivePatterns st aid) : q ∈ st.patterns ∧ q.agentId = aid := by
  unfold getActivePatterns at hq
  have h1 := List.mem_mergeSort.mp hq
  have h2 := List.mem_filter.mp h1
  refine ⟨h2.1, ?_⟩
  have h3 : q.active = true ∧ decide (q.agentId = aid) = true := by simpa using h2.2
  exact of_decide_eq_true h3.2

/-- Claim C8: the pattern novelty gate.  (1) `discover` saves only candidates
whose measured overlap ratio is at most `maxOverlapRatio` and whose yield meets
`minYield` (so an overlap of 0.95 under the default 0.9 ceiling is never
saved); (2) `validatePatterns` deactivates every non-static active pattern
whose re-measured evaluation fails (no result, yield below `minYield`, or
overlap above `maxOverlapRatio`).  The hypotheses are the schema's primary-key
uniqueness of pattern ids and the spec's per-agent uniqueness of predicate
sequences. -/
theorem pattern_novelty_gate (st : GraphState) (cfg : DiscoveryConfig) (aid : String)
    (hids : (st.patterns.map (fun q => q.id)).Nodup)
    (hkeys : st.patterns.Pairwise (fun a b =>
      ¬(a.predicates = b.predicates ∧ a.agentId = b.agentId))) :
    (∀ c ∈ discoverToSave st cfg aid, c.2.2.1 ≤ cfg.maxOverlap ∧ cfg.minYield ≤ c.2.1) ∧
    (∀ p ∈ getActivePatterns st aid, p.patternType ≠ "static" →
      (∀ y ov avg, evalPattern st cfg aid p.predicates = some (y, ov, avg) →
        y < cfg.minYield ∨ ov > cfg.maxOverlap) →
      ∀ q ∈ (validatePatterns st cfg aid).1.patterns, q.id = p.id → q.active = false) := by
  refine ⟨discoverToSave_gate st cfg aid, ?_⟩
  intro p hp hstatic hgate
  have hsymm : ∀ {x y : MetaPattern},
      ¬(x.predicates = y.predicates ∧ x.agentId = y.agentId) →
      ¬(y.predicates = x.predicates ∧ y.agentId = x.agentId) :=
    fun h hc => h ⟨hc.1.symm, hc.2.symm⟩
  have hfil : (st.patterns.filter (fun q => q.active && decide (q.agentId = aid))).Pairwise
      (fun a b => ¬(a.predicates = b.predicates ∧ a.agentId = b.agentId)) :=
    hkeys.sublist (List.filter_sublist _)
  have hpair : (getActivePatterns st aid).Pairwise (fun a b =>
      ¬(a.predicates = b.predicates ∧ a.agentId = b.agentId)) :=
    (List.Perm.pairwise_iff hsymm (List.mergeSort_perm _ _)).mpr hfil
  exact validateLoop_retires cfg aid p hstatic (getActivePatterns st aid) st 0 0 hp hpair
    (fun q hq => (getActivePatterns_mem st aid q hq).2)
    (fun q hq => ⟨q, (getActivePatterns_mem st aid q hq).1, rfl,
      (getActivePatterns_mem st aid q hq).2⟩)
    hids
    ⟨p, (getActivePatterns_mem st aid p hp).1, rfl, rfl, rfl⟩
    hgate

/-- A discovered active pattern whose re-evaluation yields nothing (the store
has no triples at all), so validation must retire it. -/
def egPattern : MetaPattern :=
  { id := 1, predicates := ["knows", "knows"], patternType := "discovered",
    weight := 1/2, yieldScore := 5, overlap := 1/2, active := true, agentId := "main" }

/-- Store holding only `egPattern`. -/
def egPatternState : GraphState :=
  { triples := [], entities := [], coocs := [], patterns := [egPattern],
    nextTripleId := 1, nextPatternId := 2, now := 0, today := "" }

/-- Witness for C8: on `egPatternState`, `validatePatterns` deactivates the
stale discovered pattern. -/
theorem pattern_novelty_gate_witness :
    (egPatternState.patterns.map (fun q => q.id)).Nodup ∧
    egPattern ∈ getActivePatterns egPatternState "main" ∧
    (∀ q ∈ (validatePatterns egPatternState {} "main").1.patterns,
      q.id = egPattern.id → q.active = false) :=
  ⟨by with_unfolding_all decide,
   by with_unfolding_all decide,
   (pattern_novelty_gate egPatternState {} "main" (by with_unfolding_all decide)
       (by with_unfolding_all decide)).2 egPattern (by with_unfolding_all decide)
     (by decide)
     (by
       intro y ov avg h
       have he : evalPattern egPatternState {} "main" egPattern.predicates = none := by
         with_unfolding_all rfl
       rw [he] at h
       exact absurd h (by simp))⟩
